import Mathlib

/-!
# Wii U GameCube adapter HID driver (`input/common/hid/device_wiiu_gca.c`)

A shallow embedding of the adapter driver: the adapter instance, the shared
pad table `hid_instance.pad_list`, the port scan of `update_pad_state`, pad
registration and release, and the per-pad packet decoder.

Modelling conventions.

* Memory is passed explicitly as a `hid_state`: the one adapter instance and
  the pad table.  A `wiiu_gca_instance_t *` is an `instance_ptr` (either `NULL`
  or the address of that instance); a `joypad_connection_t *` into the pad
  table is `Option Nat` (`none` is `NULL`, `some s` is `&pad_list[s]`); the
  `void *data` of a table entry is `Option gca_pad_t`.
* C arrays are total functions or lists: `pads[4]` and `pad_list[]` are
  functions of the index (only indices inside the array are meaningful),
  byte arrays are lists of naturals.
* `calloc` is taken to succeed.  Logging, the transport handle, the OS driver
  pointer and the host notification `input_pad_connect` carry no state that
  the driver reads back and are left out.
* What the file uses but does not define (`pad_connection_find_vacant_pad`
  and the `RETRO_DEVICE_ID_JOYPAD_*` constants) is a parameter, `hid_env`.
-/

namespace WiiuGca

/-! ## Data model -/

/-- The value `GCA_PORT_INITIALIZING` of a port status byte. -/
def GCA_PORT_INITIALIZING : Nat := 0x00

/-- The value `GCA_PORT_EMPTY` of a port status byte. -/
def GCA_PORT_EMPTY : Nat := 0x04

/-- The value `GCA_PORT_CONNECTED` of a port status byte. -/
def GCA_PORT_CONNECTED : Nat := 0x14

/-- The struct `gca_pad_t` without its two back pointers (`gca_handle`, `driver`):
the 9 bytes of pad data, the slot, the digital button state and the name
(`none` is a `NULL` name). -/
structure gca_pad_t where
  data : List Nat
  slot : Nat
  buttons : Nat
  name : Option (List Char)
deriving DecidableEq, Repr

/-- The pad interface tables an entry of the pad table can point to; this file
defines one, `wiiu_gca_pad_connection`. -/
inductive pad_connection_interface_t where
  | wiiu_gca_pad_connection
deriving DecidableEq, Repr

/-- One entry of `hid_instance.pad_list`: the three fields the driver touches. -/
structure joypad_connection_t where
  iface : Option pad_connection_interface_t
  data : Option gca_pad_t
  connected : Bool
deriving DecidableEq, Repr

/-- The struct `wiiu_gca_instance_t` without the transport handle. -/
structure wiiu_gca_instance_t where
  online : Bool
  device_state : List Nat
  pads : Nat → Option Nat

/-- A `wiiu_gca_instance_t *` argument: `NULL`, or the adapter instance of the state. -/
inductive instance_ptr where
  | NULL
  | gca
deriving DecidableEq, Repr

/-- The memory the driver works on: the adapter instance and `hid_instance.pad_list`. -/
structure hid_state where
  gca : wiiu_gca_instance_t
  pad_list : Nat → joypad_connection_t

/-- What the file uses without defining it: the vacancy query of the pad table
and the twelve libretro button identifiers. -/
structure hid_env where
  pad_connection_find_vacant_pad : (Nat → joypad_connection_t) → Int
  RETRO_DEVICE_ID_JOYPAD_A : Nat
  RETRO_DEVICE_ID_JOYPAD_B : Nat
  RETRO_DEVICE_ID_JOYPAD_X : Nat
  RETRO_DEVICE_ID_JOYPAD_Y : Nat
  RETRO_DEVICE_ID_JOYPAD_LEFT : Nat
  RETRO_DEVICE_ID_JOYPAD_RIGHT : Nat
  RETRO_DEVICE_ID_JOYPAD_DOWN : Nat
  RETRO_DEVICE_ID_JOYPAD_UP : Nat
  RETRO_DEVICE_ID_JOYPAD_START : Nat
  RETRO_DEVICE_ID_JOYPAD_SELECT : Nat
  RETRO_DEVICE_ID_JOYPAD_R : Nat
  RETRO_DEVICE_ID_JOYPAD_L : Nat

/-! ## C helpers -/

/-- The call `memcpy(dst, src, n)` on byte arrays: the first `n` bytes of `dst`
are replaced by the first `n` bytes of `src`. -/
def memcpy (dst src : List Nat) (n : Nat) : List Nat :=
  src.take n ++ dst.drop n

/-- Conversion of an `int` to `int16_t` (two's complement wrap-around). -/
def to_int16_t (x : Int) : Int :=
  (x + 32768) % 65536 - 32768

/-- The text `printf` writes for `%d`. -/
def format_d (n : Int) : List Char :=
  if n < 0 then '-' :: Nat.toDigits 10 (-n).toNat else Nat.toDigits 10 n.toNat

/-- The call `snprintf(buf, size, ...)` keeps at most `size - 1` characters of
the formatted text. -/
def snprintf (size : Nat) (text : List Char) : List Char :=
  text.take (size - 1)

/-! ## The pad: `wiiu_gca_pad_connection` -/

/-- The static table `button_mapping` of `wiiu_gca_packet_handler`. -/
def button_mapping (env : hid_env) : List Nat :=
  [ env.RETRO_DEVICE_ID_JOYPAD_A,
    env.RETRO_DEVICE_ID_JOYPAD_B,
    env.RETRO_DEVICE_ID_JOYPAD_X,
    env.RETRO_DEVICE_ID_JOYPAD_Y,
    env.RETRO_DEVICE_ID_JOYPAD_LEFT,
    env.RETRO_DEVICE_ID_JOYPAD_RIGHT,
    env.RETRO_DEVICE_ID_JOYPAD_DOWN,
    env.RETRO_DEVICE_ID_JOYPAD_UP,
    env.RETRO_DEVICE_ID_JOYPAD_START,
    env.RETRO_DEVICE_ID_JOYPAD_SELECT,
    env.RETRO_DEVICE_ID_JOYPAD_R,
    env.RETRO_DEVICE_ID_JOYPAD_L ]

/-- The function `wiiu_gca_pad_init`: a zeroed pad that records its slot. -/
def wiiu_gca_pad_init (slot : Nat) : gca_pad_t :=
  { data := List.replicate 9 0, slot := slot, buttons := 0, name := none }

/-- One pass of the button loop of `wiiu_gca_packet_handler`:
`buttons |= (pressed_keys & (1 << i)) ? (1 << button_mapping[i]) : 0`,
on `uint32_t`. -/
def button_step (env : hid_env) (pressed_keys : Nat) (buttons i : Nat) : Nat :=
  (buttons ||| (if pressed_keys &&& (1 <<< i) ≠ 0
      then 1 <<< (button_mapping env).getD i 0 else 0)) % 2 ^ 32

/-- The button loop `for(i = 0; i < 12; i++)` of `wiiu_gca_packet_handler`,
started from `buttons = 0`. -/
def decode_buttons (env : hid_env) (pressed_keys : Nat) : Nat :=
  (List.range 12).foldl (button_step env pressed_keys) 0

/-- The assignment `pressed_keys = pad->data[3] | (pad->data[4] << 8)` of
`wiiu_gca_packet_handler`, a `uint32_t`. -/
def pressed_keys (data : List Nat) : Nat :=
  (data.getD 3 0 ||| (data.getD 4 0 <<< 8)) % 2 ^ 32

/-- The function `wiiu_gca_packet_handler(data, packet, size)`: `packet` is the
memory `packet` points to, `none` when the pointer is `NULL`. -/
def wiiu_gca_packet_handler (env : hid_env) (data : Option gca_pad_t)
    (packet : Option (List Nat)) (size : Nat) : Option gca_pad_t :=
  match data, packet with
  | none, _ => none
  | some pad, none => some pad
  | some pad, some bytes =>
    if size > 9 then some pad
    else
      let data := memcpy pad.data bytes size
      some { pad with data := data, buttons := decode_buttons env (pressed_keys data) }

/-- The function `wiiu_gca_get_axis`. -/
def wiiu_gca_get_axis (data : Option gca_pad_t) (axis : Nat) : Int :=
  match data with
  | none => 0
  | some pad =>
    if axis ≥ 4 then 0
    else
      let val : Nat := pad.data.getD (5 + axis) 0
      let val : Int :=
        if axis = 0 ∨ axis = 2 then to_int16_t (0x8000 - ((val <<< 8 : Nat) : Int))
        else to_int16_t (((val <<< 8 : Nat) : Int) - 0x8000)
      if val > 0x1000 ∨ val < -0x1000 then 0 else val

/-- The function `wiiu_gca_get_name`. -/
def wiiu_gca_get_name (pad : gca_pad_t) : Option (List Char) :=
  pad.name

/-! ## The adapter: `wiiu_gca_hid_device` -/

/-- The function `set_pad_name_for_port`. -/
def set_pad_name_for_port (pad : gca_pad_t) (port : Int) : gca_pad_t :=
  if port ≥ 4 then pad
  else
    { pad with name := some (snprintf 32
        ("Nintendo Gamecube Controller [GCA Port ".toList ++ format_d port ++ "]".toList)) }

/-- The function `register_pad`: the returned pointer and the memory afterwards. -/
def register_pad (env : hid_env) (inst : instance_ptr) (port : Int) (w : hid_state) :
    Option Nat × hid_state :=
  if inst = instance_ptr.NULL ∨ w.gca.online = false then (none, w)
  else
    let slot := env.pad_connection_find_vacant_pad w.pad_list
    if slot < 0 then (none, w)
    else
      let result : joypad_connection_t :=
        { iface := some pad_connection_interface_t.wiiu_gca_pad_connection,
          data := some (set_pad_name_for_port (wiiu_gca_pad_init slot.toNat) port),
          connected := true }
      (some slot.toNat, { w with pad_list := Function.update w.pad_list slot.toNat result })

/-- The function `unregister_pad`; `deinit` releases the pad data. -/
def unregister_pad (inst : instance_ptr) (slot : Int) (w : hid_state) : hid_state :=
  if inst = instance_ptr.NULL ∨ slot < 0 ∨ slot ≥ 4 then w
  else
    match w.gca.pads slot.toNat with
    | none => w
    | some pad =>
      let entry : joypad_connection_t :=
        { (w.pad_list pad) with data := none, connected := false }
      { gca := { w.gca with pads := Function.update w.gca.pads slot.toNat none },
        pad_list := Function.update w.pad_list pad entry }

/-- The call `pad->iface->packet_handler(pad->data, packet, size)` for the table
entry `pad`.  A `NULL` interface cannot be called; the model leaves the memory as it is. -/
def call_packet_handler (env : hid_env) (pad : Nat) (packet : List Nat) (size : Nat)
    (w : hid_state) : hid_state :=
  match (w.pad_list pad).iface with
  | none => w
  | some pad_connection_interface_t.wiiu_gca_pad_connection =>
    let entry : joypad_connection_t :=
      { (w.pad_list pad) with
        data := wiiu_gca_packet_handler env (w.pad_list pad).data (some packet) size }
    { w with pad_list := Function.update w.pad_list pad entry }

/-- The body of the loop of `update_pad_state` at offset `i`. -/
def update_pad_state_body (env : hid_env) (i : Nat) (w : hid_state) : hid_state :=
  let port := i / 9
  let status := w.gca.device_state.getD i 0
  if status = GCA_PORT_INITIALIZING ∨ status = GCA_PORT_EMPTY then
    match w.gca.pads port with
    | some _ => unregister_pad instance_ptr.gca port w
    | none => w
  else if status = GCA_PORT_CONNECTED then
    match w.gca.pads port with
    | none =>
      let r := register_pad env instance_ptr.gca port w
      let w1 : hid_state :=
        { r.2 with gca := { r.2.gca with pads := Function.update r.2.gca.pads port r.1 } }
      match r.1 with
      | none => w1
      | some pad => call_packet_handler env pad (w1.gca.device_state.drop i) 9 w1
    | some pad => call_packet_handler env pad (w.gca.device_state.drop i) 9 w
  else w

/-- The loop `for(i = 1; i < 37; i += 9)` of `update_pad_state`, `n` passes at most. -/
def update_pad_state_loop (env : hid_env) : Nat → Nat → hid_state → hid_state
  | 0, _, w => w
  | n + 1, i, w =>
    if i < 37 then update_pad_state_loop env n (i + 9) (update_pad_state_body env i w) else w

/-- The function `update_pad_state`. -/
def update_pad_state (env : hid_env) (inst : instance_ptr) (w : hid_state) : hid_state :=
  if inst = instance_ptr.NULL ∨ w.gca.online = false then w
  else update_pad_state_loop env 37 1 w

/-- The function `wiiu_gca_handle_packet(data, buffer, size)`. -/
def wiiu_gca_handle_packet (env : hid_env) (data : instance_ptr) (buffer : List Nat)
    (size : Nat) (w : hid_state) : hid_state :=
  if data = instance_ptr.NULL ∨ w.gca.online = false then w
  else if size > 37 then w
  else
    update_pad_state env data
      { w with gca := { w.gca with device_state := memcpy w.gca.device_state buffer size } }

/-- The function `wiiu_gca_init`: `read` is what the priming read delivers, at
most 37 bytes of it land in the zeroed `device_state`. -/
def wiiu_gca_init (read : List Nat) (pad_list : Nat → joypad_connection_t) : hid_state :=
  { gca := { online := true,
             device_state := memcpy (List.replicate 37 0) read (min read.length 37),
             pads := fun _ => none },
    pad_list := pad_list }

/-- The function `wiiu_gca_free`, up to the release of the instance itself. -/
def wiiu_gca_free (data : instance_ptr) (w : hid_state) : hid_state :=
  match data with
  | instance_ptr.NULL => w
  | instance_ptr.gca =>
    [0, 1, 2, 3].foldl (fun (w : hid_state) (i : Int) => unregister_pad instance_ptr.gca i w)
      { w with gca := { w.gca with online := false } }

/-! ## A pad table and identifiers to run the driver on -/

/-- Modelled from the spec: the vacancy query of the external device-slot table
(`pad_connection_find_vacant_pad`, which this file only calls).  The table has
`max_users` slots, a slot is vacant when it is not marked connected, the answer
is the first vacant slot, or `-1` when there is none. -/
def find_vacant_pad (max_users : Nat) (pad_list : Nat → joypad_connection_t) : Int :=
  match (List.range max_users).find? (fun s => !(pad_list s).connected) with
  | some s => (s : Int)
  | none => -1

/-- An environment: a pad table of `max_users` slots and the button identifiers
of `libretro.h` (B, Y, SELECT, START, UP, DOWN, LEFT, RIGHT, A, X, L, R are 0 to 11). -/
def libretro_env (max_users : Nat) : hid_env :=
  { pad_connection_find_vacant_pad := find_vacant_pad max_users,
    RETRO_DEVICE_ID_JOYPAD_A := 8,
    RETRO_DEVICE_ID_JOYPAD_B := 0,
    RETRO_DEVICE_ID_JOYPAD_X := 9,
    RETRO_DEVICE_ID_JOYPAD_Y := 1,
    RETRO_DEVICE_ID_JOYPAD_LEFT := 6,
    RETRO_DEVICE_ID_JOYPAD_RIGHT := 7,
    RETRO_DEVICE_ID_JOYPAD_DOWN := 5,
    RETRO_DEVICE_ID_JOYPAD_UP := 4,
    RETRO_DEVICE_ID_JOYPAD_START := 3,
    RETRO_DEVICE_ID_JOYPAD_SELECT := 2,
    RETRO_DEVICE_ID_JOYPAD_R := 11,
    RETRO_DEVICE_ID_JOYPAD_L := 10 }

/-- A pad table entry nobody uses. -/
def vacant_entry : joypad_connection_t :=
  { iface := none, data := none, connected := false }

/-- A freshly attached adapter (all ports empty, 37 zero bytes read) next to a
pad table in which nothing is connected. -/
def fresh_state : hid_state :=
  wiiu_gca_init (List.replicate 37 0) (fun _ => vacant_entry)

/-- A 37-byte buffer: header byte 0, and for each port its status byte followed
by the same 8 payload bytes. -/
def buffer_of (s0 s1 s2 s3 : Nat) (payload : List Nat) : List Nat :=
  0 :: (s0 :: payload.take 8) ++ (s1 :: payload.take 8) ++ (s2 :: payload.take 8)
    ++ (s3 :: payload.take 8)

/-! ## Well-formed states -/

/-- A pad table entry in use by the driver: marked connected, its interface
set, and carrying a pad with 9 bytes of data. -/
def slot_live (c : joypad_connection_t) : Bool :=
  c.connected && c.iface.isSome &&
    (match c.data with
     | some pad => decide (pad.data.length = 9)
     | none => false)

/-- Port `p` is in order with respect to port `q`: if `p` owns a pad, it points to
a live entry of the pad table, and `q` points to the same entry only if `q` is `p`. -/
def port_ok (w : hid_state) (p q : Nat) : Prop :=
  w.gca.pads p ≠ none →
    (w.gca.pads p).map (fun s => slot_live (w.pad_list s)) = some true ∧
    (w.gca.pads q = w.gca.pads p → q = p)

instance port_ok_decidable (w : hid_state) (p q : Nat) : Decidable (port_ok w p q) := by
  unfold port_ok
  infer_instance

/-- The data model's shape and ownership discipline: `device_state` has its 37
bytes, every port that owns a pad points to a live entry of the pad table, and
no two ports point to the same entry. -/
def gca_wf (w : hid_state) : Prop :=
  w.gca.device_state.length = 37 ∧ ∀ p < 4, ∀ q < 4, port_ok w p q

/-- The vacancy query answers with a slot that is not marked connected, or with
a negative number. -/
def vacant_sound (env : hid_env) : Prop :=
  ∀ pad_list : Nat → joypad_connection_t,
    0 ≤ env.pad_connection_find_vacant_pad pad_list →
    (pad_list (env.pad_connection_find_vacant_pad pad_list).toNat).connected = false

/-- The memory at the moment the scan of `wiiu_gca_handle_packet` reaches port
`port`: the buffer is copied in and the loop has made `port` passes. -/
def state_at_scan (env : hid_env) (buffer : List Nat) (size : Nat) (port : Nat)
    (w : hid_state) : hid_state :=
  update_pad_state_loop env port 1
    { w with gca := { w.gca with device_state := memcpy w.gca.device_state buffer size } }

/-- The 9-byte slice of a buffer that belongs to port `port`. -/
def port_slice (buffer : List Nat) (port : Nat) : List Nat :=
  (buffer.drop (1 + 9 * port)).take 9

/-! ## The four outcomes of one pass of the scan -/

/-- The memory after a port that owned the pad table entry `s` is released. -/
def released (w : hid_state) (port s : Nat) : hid_state :=
  { gca := { w.gca with pads := (Function.update w.gca.pads port none) },
    pad_list := (Function.update w.pad_list s
      { iface := (w.pad_list s).iface, data := none, connected := false }) }

/-- The memory after `register_pad` has bound `port` to the pad table entry `s`. -/
def bound (w : hid_state) (port s : Nat) : hid_state :=
  { gca := { w.gca with pads := (Function.update w.gca.pads port (some s)) },
    pad_list := (Function.update w.pad_list s
      { iface := some pad_connection_interface_t.wiiu_gca_pad_connection,
        data := (some (set_pad_name_for_port (wiiu_gca_pad_init s) (port : Int))),
        connected := true }) }

/-! ## Sample inputs -/

/-- Eight payload bytes: A and L pressed (`0x0801`), the four axes at
`0x80`, `0x70`, `0xFF`, `0x90`. -/
def sample_payload : List Nat := [1, 2, 0x01, 0x08, 0x80, 0x70, 0xFF, 0x90]

/-- A 37-byte buffer in which only port 0 reports a connected pad. -/
def buffer_port0 : List Nat := buffer_of 0x14 0x04 0x04 0x04 sample_payload

/-- A 37-byte buffer in which only port 1 reports a connected pad. -/
def buffer_port1 : List Nat := buffer_of 0x04 0x14 0x04 0x04 sample_payload

/-- A 37-byte buffer in which ports 0 and 1 report a connected pad. -/
def buffer_port01 : List Nat := buffer_of 0x14 0x14 0x04 0x04 sample_payload

/-- A 37-byte buffer in which port 0 reports a status byte the driver does not know. -/
def buffer_unknown0 : List Nat := buffer_of 0x55 0x04 0x04 0x04 sample_payload

/-- An adapter whose port 0 owns the pad in slot 0 of the pad table: a fresh
adapter after one packet of `buffer_port0`. -/
def port0_state (max_users : Nat) : hid_state :=
  wiiu_gca_handle_packet (libretro_env max_users) instance_ptr.gca buffer_port0 37 fresh_state

/-- A 37-byte buffer in which every port reports that it is empty. -/
def buffer_empty : List Nat := buffer_of 0x04 0x04 0x04 0x04 sample_payload

/-- A 9-byte pad packet: the status byte `0x14` followed by `sample_payload`. -/
def sample_packet : List Nat := 0x14 :: sample_payload

/-! ## The spec's axis formula -/

/-- The axis formula in the words of the spec, on plain integers without
wrap-around: `0x8000 - (b << 8)` for the axes 0 and 2, `(b << 8) - 0x8000` for
the axes 1 and 3, replaced by 0 when its magnitude exceeds `0x1000`. -/
def spec_axis (axis b : Nat) : Int :=
  let v : Int :=
    if axis = 0 ∨ axis = 2 then 0x8000 - ((b <<< 8 : Nat) : Int)
    else ((b <<< 8 : Nat) : Int) - 0x8000
  if v.natAbs > 0x1000 then 0 else v

/-- An adapter after teardown: `port0_state` once `wiiu_gca_free` has run over it. -/
def torn_down_state (max_users : Nat) : hid_state :=
  wiiu_gca_free instance_ptr.gca (port0_state max_users)

/-! ## Bit fields -/

/-- The pressed field of a packet in the words of the spec: byte 3 is the low
byte and byte 4 the high byte, `packet[3] | packet[4] << 8`. -/
def packet_field (packet : List Nat) : Nat :=
  packet.getD 3 0 ||| (packet.getD 4 0 <<< 8)

/-- The positions below `width` at which a bit of `x` is set. -/
def set_bits (x width : Nat) : Finset Nat :=
  (Finset.range width).filter (fun j => x.testBit j = true)

/-- A 9-byte pad packet that differs from `sample_packet` in every byte but
byte 3 and the low four bits of byte 4. -/
def sample_packet_other : List Nat := [0x00, 7, 9, 0x01, 0xF8, 0x10, 0x20, 0x30, 0x40]

/-! ## Histories of the adapter -/

/-- The states an adapter can be in: the state `wiiu_gca_init` leaves, next to
any pad table, and every state a call of `wiiu_gca_handle_packet` leads to from
such a state.  Nothing else writes to the pad table. -/
inductive reachable (env : hid_env) : hid_state → Prop where
  | init (read : List Nat) (pad_list : Nat → joypad_connection_t) :
      reachable env (wiiu_gca_init read pad_list)
  | packet (data : instance_ptr) (buffer : List Nat) (size : Nat) (w : hid_state) :
      reachable env w → reachable env (wiiu_gca_handle_packet env data buffer size w)

/-- An adapter whose ports 0 and 1 own the pads in slots 0 and 1: a fresh adapter
after one packet of `buffer_port01`. -/
def port01_state (max_users : Nat) : hid_state :=
  wiiu_gca_handle_packet (libretro_env max_users) instance_ptr.gca buffer_port01 37 fresh_state

/-- The number of calls, in a run of `wiiu_gca_handle_packet` over the 37-byte
buffers `buffers` from `w`, in which port `p` is registered: it owns no pad
before the call and owns one after it.  A call passes over port `p` once and no
other pass writes `pads[p]`, so this is the number of calls of `register_pad`
for port `p` that return a pad. -/
def count_registrations (env : hid_env) (p : Nat) : List (List Nat) → hid_state → Nat
  | [], _ => 0
  | b :: bs, w =>
    (if w.gca.pads p = none ∧
        (wiiu_gca_handle_packet env instance_ptr.gca b 37 w).gca.pads p ≠ none then 1 else 0) +
      count_registrations env p bs (wiiu_gca_handle_packet env instance_ptr.gca b 37 w)

/-- The number of calls, in a run of `wiiu_gca_handle_packet` over the 37-byte
buffers `buffers` from `w`, in which port `p` is unregistered: it owns a pad
before the call and none after it, which is when `unregister_pad` releases the
pad of port `p`. -/
def count_unregistrations (env : hid_env) (p : Nat) : List (List Nat) → hid_state → Nat
  | [], _ => 0
  | b :: bs, w =>
    (if w.gca.pads p ≠ none ∧
        (wiiu_gca_handle_packet env instance_ptr.gca b 37 w).gca.pads p = none then 1 else 0) +
      count_unregistrations env p bs (wiiu_gca_handle_packet env instance_ptr.gca b 37 w)

/-- The memory after `wiiu_gca_handle_packet` has been called on each of the
37-byte buffers `buffers`, in order. -/
def handle_packets (env : hid_env) : List (List Nat) → hid_state → hid_state
  | [], w => w
  | b :: bs, w => handle_packets env bs (wiiu_gca_handle_packet env instance_ptr.gca b 37 w)

/-! ## The scan, one port at a time -/

theorem gca_wf_live {w : hid_state} (h : gca_wf w) {p s : Nat} (hp : p < 4)
    (hs : w.gca.pads p = some s) : slot_live (w.pad_list s) = true := by
  have := (h.2 p hp p hp (by simp [hs])).1
  simpa [hs] using this

theorem gca_wf_inj {w : hid_state} (h : gca_wf w) {p q s : Nat} (hp : p < 4) (hq : q < 4)
    (hs : w.gca.pads p = some s) (ht : w.gca.pads q = some s) : q = p :=
  (h.2 p hp q hq (by simp [hs])).2 (by rw [hs, ht])

theorem gca_wf_intro {w : hid_state} (h0 : w.gca.device_state.length = 37)
    (h1 : ∀ p < 4, ∀ s, w.gca.pads p = some s → slot_live (w.pad_list s) = true)
    (h2 : ∀ p < 4, ∀ q < 4, ∀ s, w.gca.pads p = some s → w.gca.pads q = some s → q = p) :
    gca_wf w := by
  refine ⟨h0, ?_⟩
  intro p hp q hq hne
  obtain ⟨s, hs⟩ := Option.ne_none_iff_exists'.mp hne
  refine ⟨by simp [hs, h1 p hp s hs], fun h => h2 p hp q hq s hs (by rw [h, hs])⟩

theorem slot_live_iff (c : joypad_connection_t) :
    slot_live c = true ↔
      c.connected = true ∧ c.iface = some pad_connection_interface_t.wiiu_gca_pad_connection ∧
        ∃ pad, c.data = some pad ∧ pad.data.length = 9 := by
  obtain ⟨iface, data, connected⟩ := c
  cases iface with
  | none => simp [slot_live]
  | some f =>
    cases f
    cases data <;> simp [slot_live]

theorem find_vacant_pad_sound (n : Nat) (pad_list : Nat → joypad_connection_t)
    (h : 0 ≤ find_vacant_pad n pad_list) :
    (pad_list (find_vacant_pad n pad_list).toNat).connected = false := by
  unfold find_vacant_pad at h ⊢
  cases hf : (List.range n).find? (fun s => !(pad_list s).connected) with
  | none => simp [hf] at h
  | some s =>
    have := List.find?_some hf
    simpa using this

theorem libretro_env_vacant_sound (n : Nat) : vacant_sound (libretro_env n) :=
  fun pad_list h => find_vacant_pad_sound n pad_list h

theorem body_device_state (env : hid_env) (i : Nat) (w : hid_state) :
    (update_pad_state_body env i w).gca.device_state = w.gca.device_state ∧
    (update_pad_state_body env i w).gca.online = w.gca.online := by
  unfold update_pad_state_body unregister_pad register_pad call_packet_handler
  constructor <;> (simp only []; split_ifs <;> (repeat' split) <;> simp_all)


theorem port_cast (i : Nat) (hq : i / 9 < 4) :
    ((i : Int) / 9).toNat = i / 9 ∧ ¬ ((i : Int) / 9 < 0) ∧ ¬ (4 ≤ (i : Int) / 9) := by
  omega

theorem body_pads_other (env : hid_env) (i : Nat) (w : hid_state) (p : Nat)
    (hp : p ≠ i / 9) : (update_pad_state_body env i w).gca.pads p = w.gca.pads p := by
  have hc : ((i : Int) / 9).toNat = i / 9 := by omega
  unfold update_pad_state_body unregister_pad register_pad call_packet_handler
  simp only []
  split_ifs <;> (repeat' split) <;> simp_all [Function.update_noteq hp]

theorem body_unknown (env : hid_env) (i : Nat) (w : hid_state)
    (h0 : w.gca.device_state.getD i 0 ≠ 0x00) (h4 : w.gca.device_state.getD i 0 ≠ 0x04)
    (h14 : w.gca.device_state.getD i 0 ≠ 0x14) : update_pad_state_body env i w = w := by
  simp [update_pad_state_body, GCA_PORT_INITIALIZING, GCA_PORT_EMPTY, GCA_PORT_CONNECTED,
    h0, h4, h14, -List.getD_eq_getElem?_getD]

theorem body_idle (env : hid_env) (i : Nat) (w : hid_state)
    (hst : w.gca.device_state.getD i 0 = 0x00 ∨ w.gca.device_state.getD i 0 = 0x04)
    (hs : w.gca.pads (i / 9) = none) : update_pad_state_body env i w = w := by
  rcases hst with h | h <;>
    simp [update_pad_state_body, GCA_PORT_INITIALIZING, GCA_PORT_EMPTY, h, hs,
      -List.getD_eq_getElem?_getD]

theorem body_disconnect (env : hid_env) (i : Nat) (w : hid_state) (s : Nat)
    (hst : w.gca.device_state.getD i 0 = 0x00 ∨ w.gca.device_state.getD i 0 = 0x04)
    (hq : i / 9 < 4) (hs : w.gca.pads (i / 9) = some s) :
    update_pad_state_body env i w =
      { gca := { w.gca with pads := Function.update w.gca.pads (i / 9) none },
        pad_list := (Function.update w.pad_list s
          { iface := (w.pad_list s).iface, data := none, connected := false }) } := by
  obtain ⟨hc, h1, h2⟩ := port_cast i hq
  rcases hst with h | h <;>
    simp [update_pad_state_body, unregister_pad, GCA_PORT_INITIALIZING, GCA_PORT_EMPTY, h, hs,
      h1, h2, hc, -List.getD_eq_getElem?_getD]

theorem body_forward (env : hid_env) (i : Nat) (w : hid_state) (s : Nat)
    (hst : w.gca.device_state.getD i 0 = 0x14) (hs : w.gca.pads (i / 9) = some s) :
    update_pad_state_body env i w =
      call_packet_handler env s (w.gca.device_state.drop i) 9 w := by
  simp [update_pad_state_body, GCA_PORT_INITIALIZING, GCA_PORT_EMPTY, GCA_PORT_CONNECTED,
    hst, hs, -List.getD_eq_getElem?_getD]

theorem body_register_fail (env : hid_env) (i : Nat) (w : hid_state)
    (hst : w.gca.device_state.getD i 0 = 0x14) (hs : w.gca.pads (i / 9) = none)
    (hv : env.pad_connection_find_vacant_pad w.pad_list < 0) :
    update_pad_state_body env i w = w := by
  have : Function.update w.gca.pads (i / 9) none = w.gca.pads := by
    rw [← hs]; exact Function.update_eq_self _ _
  simp [update_pad_state_body, register_pad, GCA_PORT_INITIALIZING, GCA_PORT_EMPTY,
    GCA_PORT_CONNECTED, hst, hs, hv, this, -List.getD_eq_getElem?_getD]

theorem body_register (env : hid_env) (i : Nat) (w : hid_state)
    (hst : w.gca.device_state.getD i 0 = 0x14) (hs : w.gca.pads (i / 9) = none)
    (hon : w.gca.online = true)
    (hv : 0 ≤ env.pad_connection_find_vacant_pad w.pad_list) :
    update_pad_state_body env i w =
      call_packet_handler env (env.pad_connection_find_vacant_pad w.pad_list).toNat
        (w.gca.device_state.drop i) 9
        { gca := { w.gca with pads := (Function.update w.gca.pads (i / 9)
                    (some (env.pad_connection_find_vacant_pad w.pad_list).toNat)) },
          pad_list := (Function.update w.pad_list
            (env.pad_connection_find_vacant_pad w.pad_list).toNat
            { iface := some pad_connection_interface_t.wiiu_gca_pad_connection,
              data := (some (set_pad_name_for_port
                (wiiu_gca_pad_init (env.pad_connection_find_vacant_pad w.pad_list).toNat)
                ((i / 9 : Nat) : Int))),
              connected := true }) } := by
  have hv' : ¬ env.pad_connection_find_vacant_pad w.pad_list < 0 := by omega
  simp [update_pad_state_body, register_pad, GCA_PORT_INITIALIZING, GCA_PORT_EMPTY,
    GCA_PORT_CONNECTED, hst, hs, hv', hon, -List.getD_eq_getElem?_getD]

/-! ## Forwarding a slice to a pad -/

theorem cph_gca (env : hid_env) (s : Nat) (pk : List Nat) (n : Nat) (w : hid_state) :
    (call_packet_handler env s pk n w).gca = w.gca := by
  unfold call_packet_handler
  split <;> rfl

theorem cph_other (env : hid_env) (s : Nat) (pk : List Nat) (n : Nat) (w : hid_state)
    (t : Nat) (h : t ≠ s) : (call_packet_handler env s pk n w).pad_list t = w.pad_list t := by
  unfold call_packet_handler
  split
  · rfl
  · simp [Function.update_noteq h]

theorem cph_flags (env : hid_env) (s : Nat) (pk : List Nat) (n : Nat) (w : hid_state)
    (t : Nat) :
    ((call_packet_handler env s pk n w).pad_list t).connected = (w.pad_list t).connected ∧
    ((call_packet_handler env s pk n w).pad_list t).iface = (w.pad_list t).iface := by
  by_cases h : t = s
  · subst h
    unfold call_packet_handler
    split <;> simp
  · rw [cph_other env s pk n w t h]; exact ⟨rfl, rfl⟩

theorem memcpy_full (dst src : List Nat) (n : Nat) (h : dst.length ≤ n) :
    memcpy dst src n = src.take n := by
  simp [memcpy, List.drop_eq_nil_of_le h]

theorem cph_self (env : hid_env) (s : Nat) (pk : List Nat) (w : hid_state) (pad : gca_pad_t)
    (hi : (w.pad_list s).iface = some pad_connection_interface_t.wiiu_gca_pad_connection)
    (hd : (w.pad_list s).data = some pad) (hl : pad.data.length = 9) :
    (call_packet_handler env s pk 9 w).pad_list s =
      { iface := (w.pad_list s).iface,
        data := (some { data := pk.take 9, slot := pad.slot,
                        buttons := (decode_buttons env (pressed_keys (pk.take 9))),
                        name := pad.name }),
        connected := (w.pad_list s).connected } := by
  have hm : memcpy pad.data pk 9 = pk.take 9 := memcpy_full _ _ _ (by omega)
  unfold call_packet_handler
  rw [hi]
  simp only [Function.update_same, hd, wiiu_gca_packet_handler]
  simp [hm, hi, -List.getD_eq_getElem?_getD]

theorem cph_self_live (env : hid_env) (s : Nat) (pk : List Nat) (w : hid_state)
    (h : slot_live (w.pad_list s) = true) (hpk : 9 ≤ pk.length) :
    slot_live ((call_packet_handler env s pk 9 w).pad_list s) = true := by
  obtain ⟨hc, hi, pad, hd, hl⟩ := (slot_live_iff _).mp h
  rw [cph_self env s pk w pad hi hd hl]
  rw [slot_live_iff]
  refine ⟨hc, hi, _, rfl, ?_⟩
  simp [List.length_take]; omega

theorem body_cases (env : hid_env) (i : Nat) (w : hid_state) (hq : i / 9 < 4)
    (hon : w.gca.online = true) :
    update_pad_state_body env i w = w ∨
    (∃ s, w.gca.pads (i / 9) = some s ∧
      (w.gca.device_state.getD i 0 = 0x00 ∨ w.gca.device_state.getD i 0 = 0x04) ∧
      update_pad_state_body env i w = released w (i / 9) s) ∨
    (∃ s, w.gca.pads (i / 9) = some s ∧ w.gca.device_state.getD i 0 = 0x14 ∧
      update_pad_state_body env i w =
        call_packet_handler env s (w.gca.device_state.drop i) 9 w) ∨
    (w.gca.pads (i / 9) = none ∧ w.gca.device_state.getD i 0 = 0x14 ∧
      0 ≤ env.pad_connection_find_vacant_pad w.pad_list ∧
      update_pad_state_body env i w =
        call_packet_handler env (env.pad_connection_find_vacant_pad w.pad_list).toNat
          (w.gca.device_state.drop i) 9
          (bound w (i / 9) (env.pad_connection_find_vacant_pad w.pad_list).toNat)) := by
  by_cases h14 : w.gca.device_state.getD i 0 = 0x14
  · cases hs : w.gca.pads (i / 9) with
    | none =>
      by_cases hv : env.pad_connection_find_vacant_pad w.pad_list < 0
      · exact Or.inl (body_register_fail env i w h14 hs hv)
      · exact Or.inr (Or.inr (Or.inr ⟨rfl, h14, by omega,
          body_register env i w h14 hs hon (by omega)⟩))
    | some s => exact Or.inr (Or.inr (Or.inl ⟨s, rfl, h14, body_forward env i w s h14 hs⟩))
  · by_cases h04 : w.gca.device_state.getD i 0 = 0x00 ∨ w.gca.device_state.getD i 0 = 0x04
    · cases hs : w.gca.pads (i / 9) with
      | none => exact Or.inl (body_idle env i w h04 hs)
      | some s => exact Or.inr (Or.inl ⟨s, rfl, h04, body_disconnect env i w s h04 hq hs⟩)
    · push_neg at h04
      exact Or.inl (body_unknown env i w h04.1 h04.2 h14)

theorem body_pad_list_other (env : hid_env) (i : Nat) (w : hid_state) (t : Nat)
    (hq : i / 9 < 4) (hon : w.gca.online = true) (hv : vacant_sound env)
    (h1 : w.gca.pads (i / 9) ≠ some t) (h2 : (w.pad_list t).connected = true) :
    (update_pad_state_body env i w).pad_list t = w.pad_list t := by
  rcases body_cases env i w hq hon with h | ⟨s, hs, _, h⟩ | ⟨s, hs, _, h⟩ | ⟨hs, _, hvac, h⟩
  · rw [h]
  · have hne : t ≠ s := fun e => h1 (e ▸ hs)
    rw [h]; simp [released, Function.update_noteq hne]
  · have hne : t ≠ s := fun e => h1 (e ▸ hs)
    rw [h, cph_other _ _ _ _ _ _ hne]
  · have hne : t ≠ (env.pad_connection_find_vacant_pad w.pad_list).toNat := by
      intro e
      have := hv w.pad_list hvac
      rw [← e, h2] at this
      exact Bool.noConfusion this
    rw [h, cph_other _ _ _ _ _ _ hne]; simp [bound, Function.update_noteq hne]

theorem body_wf (env : hid_env) (i : Nat) (w : hid_state) (hq : i / 9 < 4)
    (hi : i + 9 ≤ 37) (hon : w.gca.online = true) (hv : vacant_sound env)
    (hwf : gca_wf w) : gca_wf (update_pad_state_body env i w) := by
  have hlen : 9 ≤ (w.gca.device_state.drop i).length := by
    rw [List.length_drop, hwf.1]; omega
  have hconn : ∀ p < 4, ∀ s, w.gca.pads p = some s → (w.pad_list s).connected = true :=
    fun p hp s hs => ((slot_live_iff _).mp (gca_wf_live hwf hp hs)).1
  rcases body_cases env i w hq hon with h | ⟨s, hs, _, h⟩ | ⟨s, hs, _, h⟩ | ⟨hs, _, hvac, h⟩
  · rw [h]; exact hwf
  · rw [h]
    refine gca_wf_intro (show (released w (i / 9) s).gca.device_state.length = 37 from hwf.1)
      ?_ ?_
    · intro p hp t ht
      by_cases hpq : p = i / 9
      · subst hpq; simp [released] at ht
      · have ht' : w.gca.pads p = some t := by simpa [released, Function.update_noteq hpq] using ht
        have hne : t ≠ s := fun e => hpq (gca_wf_inj hwf hq hp hs (e ▸ ht'))
        simpa [released, Function.update_noteq hne] using gca_wf_live hwf hp ht'
    · intro p hp q hq' t hpt hqt
      by_cases hpq : p = i / 9
      · subst hpq; simp [released] at hpt
      · by_cases hqq : q = i / 9
        · subst hqq; simp [released] at hqt
        · have hpt' : w.gca.pads p = some t := by
            simpa [released, Function.update_noteq hpq] using hpt
          have hqt' : w.gca.pads q = some t := by
            simpa [released, Function.update_noteq hqq] using hqt
          exact gca_wf_inj hwf hp hq' hpt' hqt'
  · rw [h]
    apply gca_wf_intro (by rw [cph_gca]; exact hwf.1)
    · intro p hp t ht
      rw [cph_gca] at ht
      by_cases hts : t = s
      · subst hts; exact cph_self_live env t _ w (gca_wf_live hwf hp ht) hlen
      · rw [cph_other _ _ _ _ _ _ hts]; exact gca_wf_live hwf hp ht
    · intro p hp q hq' t hpt hqt
      rw [cph_gca] at hpt hqt
      exact gca_wf_inj hwf hp hq' hpt hqt
  · have hfree := hv w.pad_list hvac
    rw [h]
    apply gca_wf_intro (by rw [cph_gca]; exact hwf.1)
    · intro p hp t ht
      rw [cph_gca] at ht
      by_cases hpq : p = i / 9
      · subst hpq
        have hts : t = (env.pad_connection_find_vacant_pad w.pad_list).toNat := by
          simpa [bound] using ht.symm
        subst hts
        apply cph_self_live _ _ _ _ _ hlen
        rw [slot_live_iff]
        simp [bound, set_pad_name_for_port, wiiu_gca_pad_init]
        split_ifs <;> simp
      · have ht' : w.gca.pads p = some t := by
          simpa [bound, Function.update_noteq hpq] using ht
        have hne : t ≠ (env.pad_connection_find_vacant_pad w.pad_list).toNat := by
          intro e
          have := hconn p hp t ht'
          rw [e, hfree] at this
          exact Bool.noConfusion this
        rw [cph_other _ _ _ _ _ _ hne]
        simpa [bound, Function.update_noteq hne] using gca_wf_live hwf hp ht'
    · intro p hp q hq' t hpt hqt
      rw [cph_gca] at hpt hqt
      by_cases hpq : p = i / 9
      · by_cases hqq : q = i / 9
        · rw [hpq, hqq]
        · exfalso
          subst hpq
          have hts : t = (env.pad_connection_find_vacant_pad w.pad_list).toNat := by
            simpa [bound] using hpt.symm
          have hqt' : w.gca.pads q = some t := by
            simpa [bound, Function.update_noteq hqq] using hqt
          have := hconn q hq' t hqt'
          rw [hts, hfree] at this
          exact Bool.noConfusion this
      · have hpt' : w.gca.pads p = some t := by
          simpa [bound, Function.update_noteq hpq] using hpt
        by_cases hqq : q = i / 9
        · exfalso
          subst hqq
          have hts : t = (env.pad_connection_find_vacant_pad w.pad_list).toNat := by
            simpa [bound] using hqt.symm
          have := hconn p hp t hpt'
          rw [hts, hfree] at this
          exact Bool.noConfusion this
        · have hqt' : w.gca.pads q = some t := by
            simpa [bound, Function.update_noteq hqq] using hqt
          exact gca_wf_inj hwf hp hq' hpt' hqt'

/-! ## The loop of `update_pad_state` -/

theorem loop_done (env : hid_env) (n i : Nat) (w : hid_state) (h : 37 ≤ i) :
    update_pad_state_loop env n i w = w := by
  cases n with
  | zero => rfl
  | succ n => simp [update_pad_state_loop]; omega

theorem loop_split (env : hid_env) (n m : Nat) : ∀ (i : Nat) (w : hid_state),
    update_pad_state_loop env (n + m) i w =
      update_pad_state_loop env m (i + 9 * n) (update_pad_state_loop env n i w) := by
  induction n with
  | zero => intro i w; simp [update_pad_state_loop]
  | succ n ih =>
    intro i w
    rw [show n + 1 + m = (n + m) + 1 by omega]
    by_cases h : i < 37
    · simp only [update_pad_state_loop, if_pos h]
      rw [ih]
      congr 1
      omega
    · simp only [update_pad_state_loop, if_neg h]
      rw [loop_done env m _ w (by omega)]

theorem loop_succ (env : hid_env) (m i : Nat) (w : hid_state) (h : i < 37) :
    update_pad_state_loop env (m + 1) i w =
      update_pad_state_loop env m (i + 9) (update_pad_state_body env i w) := by
  simp [update_pad_state_loop, h]

theorem loop_device_state (env : hid_env) (n : Nat) : ∀ (i : Nat) (w : hid_state),
    (update_pad_state_loop env n i w).gca.device_state = w.gca.device_state ∧
    (update_pad_state_loop env n i w).gca.online = w.gca.online := by
  induction n with
  | zero => intro i w; exact ⟨rfl, rfl⟩
  | succ n ih =>
    intro i w
    by_cases h : i < 37
    · rw [loop_succ env n i w h]
      obtain ⟨h1, h2⟩ := ih (i + 9) (update_pad_state_body env i w)
      obtain ⟨h3, h4⟩ := body_device_state env i w
      exact ⟨h1.trans h3, h2.trans h4⟩
    · rw [loop_done env _ i w (by omega)]; exact ⟨rfl, rfl⟩

theorem loop_pads_untouched (env : hid_env) (p n : Nat) : ∀ (i : Nat) (w : hid_state),
    i % 9 = 1 → (p < i / 9 ∨ i / 9 + n ≤ p) →
    (update_pad_state_loop env n i w).gca.pads p = w.gca.pads p := by
  induction n with
  | zero => intro i w _ _; rfl
  | succ n ih =>
    intro i w hi hp
    by_cases h : i < 37
    · rw [loop_succ env n i w h, ih (i + 9) _ (by omega) (by omega)]
      exact body_pads_other env i w p (by omega)
    · rw [loop_done env _ i w (by omega)]

theorem loop_wf (env : hid_env) (hv : vacant_sound env) (n : Nat) :
    ∀ (i : Nat) (w : hid_state), i % 9 = 1 → w.gca.online = true → gca_wf w →
      gca_wf (update_pad_state_loop env n i w) := by
  induction n with
  | zero => intro i w _ _ h; exact h
  | succ n ih =>
    intro i w hi hon hwf
    by_cases h : i < 37
    · rw [loop_succ env n i w h]
      exact ih (i + 9) _ (by omega) ((body_device_state env i w).2.trans hon)
        (body_wf env i w (by omega) (by omega) hon hv hwf)
    · rw [loop_done env _ i w (by omega)]; exact hwf

theorem loop_slot_untouched (env : hid_env) (hv : vacant_sound env) (p s n : Nat)
    (hp : p < 4) : ∀ (i : Nat) (w : hid_state), i % 9 = 1 → w.gca.online = true →
      gca_wf w → (p < i / 9 ∨ i / 9 + n ≤ p) → w.gca.pads p = some s →
      (update_pad_state_loop env n i w).pad_list s = w.pad_list s := by
  induction n with
  | zero => intro i w _ _ _ _ _; rfl
  | succ n ih =>
    intro i w hi hon hwf hpi hs
    by_cases h : i < 37
    · have hne : p ≠ i / 9 := by omega
      rw [loop_succ env n i w h,
        ih (i + 9) _ (by omega) ((body_device_state env i w).2.trans hon)
          (body_wf env i w (by omega) (by omega) hon hv hwf) (by omega)
          ((body_pads_other env i w p hne).trans hs)]
      apply body_pad_list_other env i w s (by omega) hon hv
      · intro e
        exact hne (gca_wf_inj hwf (by omega) hp e hs)
      · exact ((slot_live_iff _).mp (gca_wf_live hwf hp hs)).1
    · rw [loop_done env _ i w (by omega)]

/-! ## `wiiu_gca_handle_packet`, seen from one port -/

theorem memcpy_37 (dst src : List Nat) (h : src.length = 37) (i : Nat) (hi : i < 37) :
    (memcpy dst src 37).getD i 0 = src.getD i 0 ∧
    (memcpy dst src 37).drop i = src.drop i ++ dst.drop 37 := by
  have ht : src.take 37 = src := List.take_of_length_le (by omega)
  unfold memcpy
  rw [ht]
  constructor
  · rw [List.getD_eq_getElem?_getD, List.getD_eq_getElem?_getD,
      List.getElem?_append_left (by omega)]
  · rw [List.drop_append_of_le_length (by omega)]

theorem handle_packet_split (env : hid_env) (w : hid_state) (buffer : List Nat) (size p : Nat)
    (hon : w.gca.online = true) (hsz : size ≤ 37) (hp : p < 4) :
    wiiu_gca_handle_packet env instance_ptr.gca buffer size w =
      update_pad_state_loop env (36 - p) (1 + 9 * p + 9)
        (update_pad_state_body env (1 + 9 * p) (state_at_scan env buffer size p w)) := by
  have h1 : ¬ size > 37 := by omega
  simp only [wiiu_gca_handle_packet, update_pad_state, hon, h1, state_at_scan]
  simp only [false_or, Bool.true_eq_false, if_false, reduceCtorEq]
  rw [show 37 = p + ((36 - p) + 1) by omega, loop_split, loop_succ _ _ _ _ (by omega)]

theorem state_at_scan_facts (env : hid_env) (w : hid_state) (buffer : List Nat) (p : Nat)
    (hlen : buffer.length = 37) (hp : p < 4) :
    (state_at_scan env buffer 37 p w).gca.online = w.gca.online ∧
    (state_at_scan env buffer 37 p w).gca.device_state.getD (1 + 9 * p) 0 =
      buffer.getD (1 + 9 * p) 0 ∧
    (state_at_scan env buffer 37 p w).gca.device_state.drop (1 + 9 * p) =
      buffer.drop (1 + 9 * p) ++ w.gca.device_state.drop 37 ∧
    (state_at_scan env buffer 37 p w).gca.pads p = w.gca.pads p := by
  obtain ⟨h1, h2⟩ := loop_device_state env p 1
    { w with gca := { w.gca with device_state := memcpy w.gca.device_state buffer 37 } }
  obtain ⟨h3, h4⟩ := memcpy_37 w.gca.device_state buffer hlen (1 + 9 * p) (by omega)
  refine ⟨h2, ?_, ?_, ?_⟩
  · unfold state_at_scan; rw [h1]; exact h3
  · unfold state_at_scan; rw [h1]; exact h4
  · exact loop_pads_untouched env p p 1 _ (by omega) (by omega)

theorem copied_wf (w : hid_state) (buffer : List Nat) (hlen : buffer.length = 37)
    (hwf : gca_wf w) :
    gca_wf { w with gca := { w.gca with device_state := memcpy w.gca.device_state buffer 37 } } := by
  refine ⟨?_, hwf.2⟩
  have := hwf.1
  simp [memcpy, hlen, this]

theorem state_at_scan_wf (env : hid_env) (w : hid_state) (buffer : List Nat) (p : Nat)
    (hv : vacant_sound env) (hwf : gca_wf w) (hon : w.gca.online = true)
    (hlen : buffer.length = 37) : gca_wf (state_at_scan env buffer 37 p w) :=
  loop_wf env hv p 1 _ (by omega) hon (copied_wf w buffer hlen hwf)

theorem state_at_scan_slot (env : hid_env) (w : hid_state) (buffer : List Nat) (p s : Nat)
    (hv : vacant_sound env) (hwf : gca_wf w) (hon : w.gca.online = true)
    (hlen : buffer.length = 37) (hp : p < 4) (hs : w.gca.pads p = some s) :
    (state_at_scan env buffer 37 p w).pad_list s = w.pad_list s :=
  loop_slot_untouched env hv p s p hp 1 _ (by omega) hon (copied_wf w buffer hlen hwf)
    (by omega) hs

theorem handle_packet_tail (env : hid_env) (w : hid_state) (buffer : List Nat) (p : Nat)
    (hv : vacant_sound env) (hwf : gca_wf w) (hon : w.gca.online = true)
    (hlen : buffer.length = 37) (hp : p < 4) :
    (wiiu_gca_handle_packet env instance_ptr.gca buffer 37 w).gca.pads p =
      (update_pad_state_body env (1 + 9 * p) (state_at_scan env buffer 37 p w)).gca.pads p ∧
    ∀ s, (update_pad_state_body env (1 + 9 * p)
        (state_at_scan env buffer 37 p w)).gca.pads p = some s →
      (wiiu_gca_handle_packet env instance_ptr.gca buffer 37 w).pad_list s =
        (update_pad_state_body env (1 + 9 * p) (state_at_scan env buffer 37 p w)).pad_list s := by
  have hon1 := (state_at_scan_facts env w buffer p hlen hp).1.trans hon
  have hwf1 := state_at_scan_wf env w buffer p hv hwf hon hlen
  have hwf2 := body_wf env (1 + 9 * p) _ (by omega) (by omega) hon1 hv hwf1
  have hon2 := (body_device_state env (1 + 9 * p) (state_at_scan env buffer 37 p w)).2.trans hon1
  rw [handle_packet_split env w buffer 37 p hon (by omega) hp]
  refine ⟨loop_pads_untouched env p _ _ _ (by omega) (by omega), fun s hs => ?_⟩
  exact loop_slot_untouched env hv p s _ hp _ _ (by omega) hon2 hwf2 (by omega) hs

theorem set_pad_name_fields (pad : gca_pad_t) (port : Int) :
    (set_pad_name_for_port pad port).data = pad.data ∧
    (set_pad_name_for_port pad port).slot = pad.slot ∧
    (set_pad_name_for_port pad port).buttons = pad.buttons := by
  unfold set_pad_name_for_port
  split_ifs <;> exact ⟨rfl, rfl, rfl⟩

theorem scan_slice (env : hid_env) (w : hid_state) (buffer : List Nat) (p : Nat)
    (hlen : buffer.length = 37) (hp : p < 4) :
    ((state_at_scan env buffer 37 p w).gca.device_state.drop (1 + 9 * p)).take 9 =
      port_slice buffer p := by
  rw [(state_at_scan_facts env w buffer p hlen hp).2.2.1, port_slice,
    List.take_append_of_le_length (by rw [List.length_drop]; omega)]

/-! ## The claims -/

/-- C1 (connect transition).  From a well-formed online state, let port `p < 4`
own no pad and let a 37-byte buffer carry the status byte `0x14` at offset
`1 + 9 * p`.  If the vacancy query answers with a slot `s` at the moment port
`p` is scanned, then after `wiiu_gca_handle_packet` port `p` points to the pad
table entry `s`, that entry is connected and holds a pad whose `slot` is `s` and
whose `data` is the 9 bytes of the buffer from offset `1 + 9 * p` on. -/
theorem connect_transition (env : hid_env) (w : hid_state) (buffer : List Nat) (p : Nat)
    (hv : vacant_sound env) (hwf : gca_wf w) (hon : w.gca.online = true) (hp : p < 4)
    (hempty : w.gca.pads p = none) (hlen : buffer.length = 37)
    (hst : buffer.getD (1 + 9 * p) 0 = 0x14)
    (hvac : 0 ≤ env.pad_connection_find_vacant_pad
      (state_at_scan env buffer 37 p w).pad_list) :
    (wiiu_gca_handle_packet env instance_ptr.gca buffer 37 w).gca.pads p =
      some (env.pad_connection_find_vacant_pad
        (state_at_scan env buffer 37 p w).pad_list).toNat ∧
    ∃ pad : gca_pad_t,
      ((wiiu_gca_handle_packet env instance_ptr.gca buffer 37 w).pad_list
        (env.pad_connection_find_vacant_pad
          (state_at_scan env buffer 37 p w).pad_list).toNat).data = some pad ∧
      ((wiiu_gca_handle_packet env instance_ptr.gca buffer 37 w).pad_list
        (env.pad_connection_find_vacant_pad
          (state_at_scan env buffer 37 p w).pad_list).toNat).connected = true ∧
      pad.slot = (env.pad_connection_find_vacant_pad
        (state_at_scan env buffer 37 p w).pad_list).toNat ∧
      pad.data = port_slice buffer p := by
  obtain ⟨hon1, hst1, -, hpads1⟩ := state_at_scan_facts env w buffer p hlen hp
  have hdiv : (1 + 9 * p) / 9 = p := by omega
  have hb := body_register env (1 + 9 * p) (state_at_scan env buffer 37 p w)
    (hst1.trans hst) (by rw [hdiv, hpads1, hempty]) (hon1.trans hon) hvac
  obtain ⟨ht1, ht2⟩ := handle_packet_tail env w buffer p hv hwf hon hlen hp
  generalize hsdef : (env.pad_connection_find_vacant_pad
    (state_at_scan env buffer 37 p w).pad_list).toNat = s at hb ⊢
  have hp1 : (update_pad_state_body env (1 + 9 * p)
      (state_at_scan env buffer 37 p w)).gca.pads p = some s := by
    rw [hb, cph_gca, hdiv]; simp
  have hp2 := ht2 s hp1
  rw [ht1, hp1, hp2, hb]
  refine ⟨rfl, ?_⟩
  rw [cph_self env s _ _ (set_pad_name_for_port (wiiu_gca_pad_init s) ((1 + 9 * p) / 9 : Nat))
    (by simp) (by simp) (by rw [(set_pad_name_fields _ _).1]; rfl)]
  refine ⟨_, rfl, by simp, ?_, ?_⟩
  · simp only [(set_pad_name_fields _ _).2.1]; rfl
  · exact scan_slice env w buffer p hlen hp

/-- C1, run: a fresh adapter next to a vacant four-slot table receives a packet
reporting a pad on port 0. -/
theorem connect_transition_witness :
    (wiiu_gca_handle_packet (libretro_env 4) instance_ptr.gca buffer_port0 37
        fresh_state).gca.pads 0 =
      some ((libretro_env 4).pad_connection_find_vacant_pad
        (state_at_scan (libretro_env 4) buffer_port0 37 0 fresh_state).pad_list).toNat ∧
    ∃ pad : gca_pad_t,
      ((wiiu_gca_handle_packet (libretro_env 4) instance_ptr.gca buffer_port0 37
          fresh_state).pad_list
        ((libretro_env 4).pad_connection_find_vacant_pad
          (state_at_scan (libretro_env 4) buffer_port0 37 0 fresh_state).pad_list).toNat).data
        = some pad ∧
      ((wiiu_gca_handle_packet (libretro_env 4) instance_ptr.gca buffer_port0 37
          fresh_state).pad_list
        ((libretro_env 4).pad_connection_find_vacant_pad
          (state_at_scan (libretro_env 4) buffer_port0 37 0 fresh_state).pad_list).toNat).connected
        = true ∧
      pad.slot = ((libretro_env 4).pad_connection_find_vacant_pad
        (state_at_scan (libretro_env 4) buffer_port0 37 0 fresh_state).pad_list).toNat ∧
      pad.data = port_slice buffer_port0 0 :=
  connect_transition (libretro_env 4) fresh_state buffer_port0 0
    (libretro_env_vacant_sound 4) (by unfold gca_wf; decide) (by decide) (by decide)
    (by decide) (by decide) (by decide) (by decide)

theorem body_pads_own (env : hid_env) (i : Nat) (w : hid_state) (s : Nat) (hq : i / 9 < 4)
    (hon : w.gca.online = true)
    (h : (update_pad_state_body env i w).gca.pads (i / 9) = some s) :
    w.gca.pads (i / 9) = some s ∨
      (w.gca.pads (i / 9) = none ∧ w.gca.device_state.getD i 0 = 0x14) := by
  rcases body_cases env i w hq hon with hb | ⟨t, ht, _, hb⟩ | ⟨t, ht, _, hb⟩ | ⟨ht, hst, _, _⟩
  · rw [hb] at h; exact Or.inl h
  · rw [hb] at h; simp [released] at h
  · rw [hb, cph_gca] at h; exact Or.inl h
  · exact Or.inr ⟨ht, hst⟩

theorem state_at_scan_succ (env : hid_env) (w : hid_state) (buffer : List Nat) (size p : Nat)
    (hp : p < 4) :
    state_at_scan env buffer size (p + 1) w =
      update_pad_state_body env (1 + 9 * p) (state_at_scan env buffer size p w) := by
  unfold state_at_scan
  rw [loop_split env p 1, loop_succ env 0 _ _ (by omega)]
  rfl

/-- C2 (disconnect transition).  From a well-formed online state, let port
`p < 4` own the pad in the pad table entry `s` and let a 37-byte buffer carry the
status byte `0x00` or `0x04` at offset `1 + 9 * p`.  After
`wiiu_gca_handle_packet` port `p` owns nothing; when the scan has passed port
`p` the entry `s` has lost its pad and is marked disconnected; and a port that
points to `s` at the end is a later port that owned nothing before the call and
reports `0x14`, so that what it holds is a pad registered afresh and not the one
port `p` owned. -/
theorem disconnect_transition (env : hid_env) (w : hid_state) (buffer : List Nat) (p s : Nat)
    (hv : vacant_sound env) (hwf : gca_wf w) (hon : w.gca.online = true) (hp : p < 4)
    (hs : w.gca.pads p = some s) (hlen : buffer.length = 37)
    (hst : buffer.getD (1 + 9 * p) 0 = 0x00 ∨ buffer.getD (1 + 9 * p) 0 = 0x04) :
    (wiiu_gca_handle_packet env instance_ptr.gca buffer 37 w).gca.pads p = none ∧
    ((state_at_scan env buffer 37 (p + 1) w).pad_list s).data = none ∧
    ((state_at_scan env buffer 37 (p + 1) w).pad_list s).connected = false ∧
    ∀ q < 4, (wiiu_gca_handle_packet env instance_ptr.gca buffer 37 w).gca.pads q = some s →
      p < q ∧ w.gca.pads q = none ∧ buffer.getD (1 + 9 * q) 0 = 0x14 := by
  obtain ⟨hon1, hst1, -, hpads1⟩ := state_at_scan_facts env w buffer p hlen hp
  have hwf1 := state_at_scan_wf env w buffer p hv hwf hon hlen
  have hdiv : (1 + 9 * p) / 9 = p := by omega
  have hb := body_disconnect env (1 + 9 * p) (state_at_scan env buffer 37 p w) s
    (by rw [hst1]; exact hst) (by omega) (by rw [hdiv, hpads1, hs])
  rw [hdiv] at hb
  have hfin : (wiiu_gca_handle_packet env instance_ptr.gca buffer 37 w).gca.pads p = none := by
    rw [(handle_packet_tail env w buffer p hv hwf hon hlen hp).1, hb]; simp
  refine ⟨hfin, ?_, ?_, ?_⟩
  · rw [state_at_scan_succ env w buffer 37 p hp, hb]; simp
  · rw [state_at_scan_succ env w buffer 37 p hp, hb]; simp
  · intro q hq hqs
    have hqp : q ≠ p := by
      intro e; rw [e, hfin] at hqs; exact Option.noConfusion hqs
    obtain ⟨honq, hstq, -, hpadsq⟩ := state_at_scan_facts env w buffer q hlen hq
    have hdivq : (1 + 9 * q) / 9 = q := by omega
    have hq1 := (handle_packet_tail env w buffer q hv hwf hon hlen hq).1
    rw [hqs] at hq1
    have hown := body_pads_own env (1 + 9 * q) (state_at_scan env buffer 37 q w) s
      (by omega) (honq.trans hon) (by rw [hdivq]; exact hq1.symm)
    rw [hdivq, hpadsq, hstq] at hown
    rcases hown with h | ⟨h1, h2⟩
    · exact absurd (gca_wf_inj hwf hp hq hs h) hqp
    · refine ⟨?_, h1, h2⟩
      by_contra hlt
      have hlt' : q < p := by omega
      have h3 : (wiiu_gca_handle_packet env instance_ptr.gca buffer 37 w).gca.pads q =
          (state_at_scan env buffer 37 p w).gca.pads q := by
        rw [handle_packet_split env w buffer 37 p hon (by omega) hp,
          loop_pads_untouched env q _ _ _ (by omega) (by omega)]
        exact body_pads_other env _ _ q (by omega)
      rw [hqs] at h3
      exact hqp (gca_wf_inj hwf1 hp hq (hpads1.trans hs) h3.symm)

/-- C2, run: the adapter whose port 0 owns slot 0 receives a packet in which
every port is empty. -/
theorem disconnect_transition_witness :
    (wiiu_gca_handle_packet (libretro_env 4) instance_ptr.gca buffer_empty 37
        (port0_state 4)).gca.pads 0 = none ∧
    ((state_at_scan (libretro_env 4) buffer_empty 37 (0 + 1) (port0_state 4)).pad_list 0).data
      = none ∧
    ((state_at_scan (libretro_env 4) buffer_empty 37 (0 + 1)
        (port0_state 4)).pad_list 0).connected = false ∧
    ∀ q < 4, (wiiu_gca_handle_packet (libretro_env 4) instance_ptr.gca buffer_empty 37
        (port0_state 4)).gca.pads q = some 0 →
      0 < q ∧ (port0_state 4).gca.pads q = none ∧ buffer_empty.getD (1 + 9 * q) 0 = 0x14 :=
  disconnect_transition (libretro_env 4) (port0_state 4) buffer_empty 0 0
    (libretro_env_vacant_sound 4) (by unfold gca_wf; decide) (by decide) (by decide)
    (by decide) (by decide) (by decide)

/-- C3 (idempotent registration).  From a well-formed online state, let port
`p < 4` own the pad in the pad table entry `s` and let a 37-byte buffer carry the
status byte `0x14` at offset `1 + 9 * p`.  The pass of the scan for port `p` is
the forwarding of the slice alone: it does not depend on the vacancy query and
changes no entry of the pad table other than `s`.  After
`wiiu_gca_handle_packet` port `p` still points to `s`, the entry is still
connected, and it holds the pad it held before (same `slot`, same `name`) with
`data` equal to the port's 9-byte slice and `buttons` decoded from it. -/
theorem idempotent_registration (env : hid_env) (w : hid_state) (buffer : List Nat)
    (p s : Nat) (hv : vacant_sound env) (hwf : gca_wf w) (hon : w.gca.online = true)
    (hp : p < 4) (hs : w.gca.pads p = some s) (hlen : buffer.length = 37)
    (hst : buffer.getD (1 + 9 * p) 0 = 0x14) :
    (∀ query : (Nat → joypad_connection_t) → Int,
      update_pad_state_body { env with pad_connection_find_vacant_pad := query } (1 + 9 * p)
          (state_at_scan env buffer 37 p w) =
        update_pad_state_body env (1 + 9 * p) (state_at_scan env buffer 37 p w)) ∧
    (∀ t, t ≠ s →
      (state_at_scan env buffer 37 (p + 1) w).pad_list t =
        (state_at_scan env buffer 37 p w).pad_list t) ∧
    (wiiu_gca_handle_packet env instance_ptr.gca buffer 37 w).gca.pads p = some s ∧
    ((wiiu_gca_handle_packet env instance_ptr.gca buffer 37 w).pad_list s).connected = true ∧
    ((wiiu_gca_handle_packet env instance_ptr.gca buffer 37 w).pad_list s).data ≠ none ∧
    ((wiiu_gca_handle_packet env instance_ptr.gca buffer 37 w).pad_list s).data =
      (w.pad_list s).data.map (fun pad =>
        { pad with data := port_slice buffer p,
                   buttons := decode_buttons env (pressed_keys (port_slice buffer p)) }) := by
  obtain ⟨hon1, hst1, -, hpads1⟩ := state_at_scan_facts env w buffer p hlen hp
  have hdiv : (1 + 9 * p) / 9 = p := by omega
  have hslot := state_at_scan_slot env w buffer p s hv hwf hon hlen hp hs
  obtain ⟨hc, hi, pad, hd, hl⟩ := (slot_live_iff _).mp (gca_wf_live hwf hp hs)
  have hb := body_forward env (1 + 9 * p) (state_at_scan env buffer 37 p w) s
    (hst1.trans hst) (by rw [hdiv, hpads1, hs])
  obtain ⟨ht1, ht2⟩ := handle_packet_tail env w buffer p hv hwf hon hlen hp
  have hp1 : (update_pad_state_body env (1 + 9 * p)
      (state_at_scan env buffer 37 p w)).gca.pads p = some s := by
    rw [hb, cph_gca, hpads1, hs]
  have hself := cph_self env s
    ((state_at_scan env buffer 37 p w).gca.device_state.drop (1 + 9 * p))
    (state_at_scan env buffer 37 p w) pad (by rw [hslot, hi]) (by rw [hslot, hd]) hl
  rw [scan_slice env w buffer p hlen hp, hslot] at hself
  refine ⟨?_, ?_, ?_, ?_, ?_, ?_⟩
  · intro query
    rw [hb]
    exact body_forward _ (1 + 9 * p) (state_at_scan env buffer 37 p w) s
      (hst1.trans hst) (by rw [hdiv, hpads1, hs])
  · intro t ht
    rw [state_at_scan_succ env w buffer 37 p hp, hb, cph_other _ _ _ _ _ _ ht]
  · rw [ht1, hp1]
  · rw [ht2 s hp1, hb, hself]; exact hc
  · rw [ht2 s hp1, hb, hself]; simp
  · rw [ht2 s hp1, hb, hself, hd]; rfl

/-- C3, run: the adapter whose port 0 owns slot 0 receives the packet that
reports port 0 connected once more. -/
theorem idempotent_registration_witness :
    (∀ query : (Nat → joypad_connection_t) → Int,
      update_pad_state_body { libretro_env 4 with pad_connection_find_vacant_pad := query }
          (1 + 9 * 0) (state_at_scan (libretro_env 4) buffer_port0 37 0 (port0_state 4)) =
        update_pad_state_body (libretro_env 4) (1 + 9 * 0)
          (state_at_scan (libretro_env 4) buffer_port0 37 0 (port0_state 4))) ∧
    (∀ t, t ≠ 0 →
      (state_at_scan (libretro_env 4) buffer_port0 37 (0 + 1) (port0_state 4)).pad_list t =
        (state_at_scan (libretro_env 4) buffer_port0 37 0 (port0_state 4)).pad_list t) ∧
    (wiiu_gca_handle_packet (libretro_env 4) instance_ptr.gca buffer_port0 37
        (port0_state 4)).gca.pads 0 = some 0 ∧
    ((wiiu_gca_handle_packet (libretro_env 4) instance_ptr.gca buffer_port0 37
        (port0_state 4)).pad_list 0).connected = true ∧
    ((wiiu_gca_handle_packet (libretro_env 4) instance_ptr.gca buffer_port0 37
        (port0_state 4)).pad_list 0).data ≠ none ∧
    ((wiiu_gca_handle_packet (libretro_env 4) instance_ptr.gca buffer_port0 37
        (port0_state 4)).pad_list 0).data =
      ((port0_state 4).pad_list 0).data.map (fun pad =>
        { pad with data := port_slice buffer_port0 0,
                   buttons := decode_buttons (libretro_env 4)
                     (pressed_keys (port_slice buffer_port0 0)) }) :=
  idempotent_registration (libretro_env 4) (port0_state 4) buffer_port0 0 0
    (libretro_env_vacant_sound 4) (by unfold gca_wf; decide) (by decide) (by decide)
    (by decide) (by decide) (by decide)

/-- C4 (unknown status is a no-op).  From a well-formed online state, for a
port `p < 4` and a 37-byte buffer whose status byte at offset `1 + 9 * p` is
none of `0x00`, `0x04`, `0x14`: after `wiiu_gca_handle_packet` port `p` points
where it pointed before (nowhere, or to the same entry), and the entry it
points to is unchanged as a whole, pad data and buttons included. -/
theorem unknown_status_noop (env : hid_env) (w : hid_state) (buffer : List Nat) (p : Nat)
    (hv : vacant_sound env) (hwf : gca_wf w) (hon : w.gca.online = true) (hp : p < 4)
    (hlen : buffer.length = 37) (h0 : buffer.getD (1 + 9 * p) 0 ≠ 0x00)
    (h4 : buffer.getD (1 + 9 * p) 0 ≠ 0x04) (h14 : buffer.getD (1 + 9 * p) 0 ≠ 0x14) :
    (wiiu_gca_handle_packet env instance_ptr.gca buffer 37 w).gca.pads p = w.gca.pads p ∧
    (state_at_scan env buffer 37 (p + 1) w) = (state_at_scan env buffer 37 p w) ∧
    ∀ s, w.gca.pads p = some s →
      (wiiu_gca_handle_packet env instance_ptr.gca buffer 37 w).pad_list s = w.pad_list s := by
  obtain ⟨hon1, hst1, -, hpads1⟩ := state_at_scan_facts env w buffer p hlen hp
  have hb := body_unknown env (1 + 9 * p) (state_at_scan env buffer 37 p w)
    (by rw [hst1]; exact h0) (by rw [hst1]; exact h4) (by rw [hst1]; exact h14)
  obtain ⟨ht1, ht2⟩ := handle_packet_tail env w buffer p hv hwf hon hlen hp
  rw [hb] at ht1 ht2
  refine ⟨ht1.trans hpads1, ?_, fun s hs => ?_⟩
  · rw [state_at_scan_succ env w buffer 37 p hp, hb]
  · rw [ht2 s (hpads1.trans hs)]
    exact state_at_scan_slot env w buffer p s hv hwf hon hlen hp hs

/-- C4, run: the adapter whose port 0 owns slot 0 receives a packet with the
status byte `0x55` for port 0. -/
theorem unknown_status_noop_witness :
    (wiiu_gca_handle_packet (libretro_env 4) instance_ptr.gca buffer_unknown0 37
        (port0_state 4)).gca.pads 0 = (port0_state 4).gca.pads 0 ∧
    (state_at_scan (libretro_env 4) buffer_unknown0 37 (0 + 1) (port0_state 4)) =
      (state_at_scan (libretro_env 4) buffer_unknown0 37 0 (port0_state 4)) ∧
    ∀ s, (port0_state 4).gca.pads 0 = some s →
      (wiiu_gca_handle_packet (libretro_env 4) instance_ptr.gca buffer_unknown0 37
        (port0_state 4)).pad_list s = (port0_state 4).pad_list s :=
  unknown_status_noop (libretro_env 4) (port0_state 4) buffer_unknown0 0
    (libretro_env_vacant_sound 4) (by unfold gca_wf; decide) (by decide) (by decide)
    (by decide) (by decide) (by decide) (by decide)

/-- C5 as stated fails: ports are scanned in order against one shared table.
Port 0 owns the only slot of a one-slot table, so the table reports no vacancy
and `register_pad` for port 1 returns `NULL`; a packet that reports port 0 empty
and port 1 connected releases the slot at port 0 and registers port 1 in it. -/
theorem registration_failure_counterexample :
    gca_wf (port0_state 1) ∧ (port0_state 1).gca.online = true ∧
    (port0_state 1).gca.pads 1 = none ∧
    (libretro_env 1).pad_connection_find_vacant_pad (port0_state 1).pad_list < 0 ∧
    (register_pad (libretro_env 1) instance_ptr.gca 1 (port0_state 1)).1 = none ∧
    buffer_port1.length = 37 ∧ buffer_port1.getD (1 + 9 * 1) 0 = 0x14 ∧
    (wiiu_gca_handle_packet (libretro_env 1) instance_ptr.gca buffer_port1 37
      (port0_state 1)).gca.pads 1 = some 0 ∧
    ((state_at_scan (libretro_env 1) buffer_port1 37 1 (port0_state 1)).pad_list 0).connected
      ≠ ((port0_state 1).pad_list 0).connected := by
  refine ⟨by unfold gca_wf; decide, by decide, by decide, by decide, by decide, by decide,
    by decide, by decide, by decide⟩

/-- C5, amended.  In every state in which the vacancy query reports no vacant
slot, `register_pad` returns `NULL` and leaves the memory as it is.  For an
online state, a port `p < 4` that owns no pad and a 37-byte buffer with status
byte `0x14` at offset `1 + 9 * p`: if the vacancy query reports no vacant slot at
the moment port `p` is scanned, the pass of the scan for port `p` changes
nothing (no pad is constructed, the pad table is as before the pass), and after
`wiiu_gca_handle_packet` port `p` still owns no pad. -/
theorem registration_failure (env : hid_env) (w : hid_state) (buffer : List Nat) (p : Nat)
    (hon : w.gca.online = true) (hp : p < 4) (hempty : w.gca.pads p = none)
    (hlen : buffer.length = 37) (hst : buffer.getD (1 + 9 * p) 0 = 0x14)
    (hfull : env.pad_connection_find_vacant_pad
      (state_at_scan env buffer 37 p w).pad_list < 0) :
    (∀ (w0 : hid_state) (inst : instance_ptr) (port : Int),
      env.pad_connection_find_vacant_pad w0.pad_list < 0 →
      register_pad env inst port w0 = (none, w0)) ∧
    state_at_scan env buffer 37 (p + 1) w = state_at_scan env buffer 37 p w ∧
    (wiiu_gca_handle_packet env instance_ptr.gca buffer 37 w).gca.pads p = none := by
  obtain ⟨hon1, hst1, -, hpads1⟩ := state_at_scan_facts env w buffer p hlen hp
  have hdiv : (1 + 9 * p) / 9 = p := by omega
  have hb := body_register_fail env (1 + 9 * p) (state_at_scan env buffer 37 p w)
    (hst1.trans hst) (by rw [hdiv, hpads1, hempty]) hfull
  refine ⟨?_, ?_, ?_⟩
  · intro w0 inst port h
    simp [register_pad, h]
  · rw [state_at_scan_succ env w buffer 37 p hp, hb]
  · rw [handle_packet_split env w buffer 37 p hon (by omega) hp, hb,
      loop_pads_untouched env p _ _ _ (by omega) (by omega), hpads1, hempty]

/-- C5 amended, run: port 0 owns the only slot and stays connected, port 1
reports a pad and finds the table full when it is scanned. -/
theorem registration_failure_witness :
    (∀ (w0 : hid_state) (inst : instance_ptr) (port : Int),
      (libretro_env 1).pad_connection_find_vacant_pad w0.pad_list < 0 →
      register_pad (libretro_env 1) inst port w0 = (none, w0)) ∧
    state_at_scan (libretro_env 1) buffer_port01 37 (1 + 1) (port0_state 1) =
      state_at_scan (libretro_env 1) buffer_port01 37 1 (port0_state 1) ∧
    (wiiu_gca_handle_packet (libretro_env 1) instance_ptr.gca buffer_port01 37
      (port0_state 1)).gca.pads 1 = none :=
  registration_failure (libretro_env 1) (port0_state 1) buffer_port01 1
    (by decide) (by decide) (by decide) (by decide) (by decide) (by decide)

/-- C6 (oversized buffer).  Whatever the state and the instance pointer, a call
of `wiiu_gca_handle_packet` with a size greater than 37 leaves the whole memory
as it is: `device_state`, the four ports, the pad table and every pad in it. -/
theorem oversized_buffer_rejected (env : hid_env) (data : instance_ptr) (buffer : List Nat)
    (size : Nat) (w : hid_state) (h : size > 37) :
    wiiu_gca_handle_packet env data buffer size w = w := by
  simp [wiiu_gca_handle_packet, h]

/-- C6, run: 38 bytes, each `0x14`, sent to the adapter whose port 0 owns slot 0. -/
theorem oversized_buffer_rejected_witness :
    wiiu_gca_handle_packet (libretro_env 4) instance_ptr.gca (List.replicate 38 0x14) 38
      (port0_state 4) = port0_state 4 :=
  oversized_buffer_rejected (libretro_env 4) instance_ptr.gca (List.replicate 38 0x14) 38
    (port0_state 4) (by decide)

/-! ## The button decoder -/

theorem button_mapping_length (env : hid_env) : (button_mapping env).length = 12 := rfl

theorem and_shift_ne_zero (k i : Nat) : (k &&& (1 <<< i) ≠ 0) ↔ k.testBit i = true := by
  rw [Nat.one_shiftLeft, Nat.and_two_pow]
  cases k.testBit i <;> simp

theorem button_step_testBit (env : hid_env) (k acc i j : Nat) :
    (button_step env k acc i).testBit j =
      (decide (j < 32) &&
        (acc.testBit j || (k.testBit i && decide ((button_mapping env).getD i 0 = j)))) := by
  unfold button_step
  rw [Nat.testBit_mod_two_pow, Nat.testBit_or]
  by_cases h : k.testBit i = true
  · rw [if_pos ((and_shift_ne_zero k i).mpr h), Nat.one_shiftLeft, Nat.testBit_two_pow, h]
    simp
  · rw [if_neg (fun hh => h ((and_shift_ne_zero k i).mp hh))]
    simp at h
    simp [h]

theorem button_step_lt (env : hid_env) (k acc i : Nat) : button_step env k acc i < 2 ^ 32 :=
  Nat.mod_lt _ (by decide)

theorem button_fold_testBit (env : hid_env) (k j : Nat) : ∀ (l : List Nat) (acc : Nat),
    acc < 2 ^ 32 →
    (l.foldl (button_step env k) acc).testBit j =
      (decide (j < 32) &&
        (acc.testBit j ||
          l.any (fun i => k.testBit i && decide ((button_mapping env).getD i 0 = j)))) := by
  intro l
  induction l with
  | nil =>
    intro acc hacc
    by_cases hj : j < 32
    · simp [hj]
    · have : acc < 2 ^ j := lt_of_lt_of_le hacc (Nat.pow_le_pow_right (by decide) (by omega))
      simp [hj, Nat.testBit_lt_two_pow this]
  | cons i l ih =>
    intro acc _
    rw [List.foldl_cons, ih _ (button_step_lt env k acc i), button_step_testBit]
    by_cases hj : j < 32 <;> simp [hj, Bool.or_assoc]

theorem decode_buttons_testBit (env : hid_env) (k j : Nat) :
    (decode_buttons env k).testBit j = true ↔
      j < 32 ∧ ∃ i < 12, k.testBit i = true ∧ (button_mapping env).getD i 0 = j := by
  unfold decode_buttons
  rw [button_fold_testBit env k j _ 0 (by decide)]
  simp only [Nat.zero_testBit, Bool.false_or, Bool.and_eq_true, decide_eq_true_eq,
    List.any_eq_true, List.mem_range]

theorem button_mapping_inj (env : hid_env) (hnodup : (button_mapping env).Nodup)
    (i j : Nat) (hi : i < 12) (hj : j < 12)
    (h : (button_mapping env).getD i 0 = (button_mapping env).getD j 0) : i = j := by
  have hi' : i < (button_mapping env).length := hi
  have hj' : j < (button_mapping env).length := hj
  rw [List.getD_eq_getElem _ _ hi', List.getD_eq_getElem _ _ hj'] at h
  exact (List.Nodup.getElem_inj_iff hnodup).mp h

theorem pressed_keys_testBit (data : List Nat) (i : Nat) (hi : i < 12) :
    (pressed_keys data).testBit i = (data.getD 3 0 ||| (data.getD 4 0 <<< 8)).testBit i := by
  unfold pressed_keys
  rw [Nat.testBit_mod_two_pow]
  simp [show i < 32 by omega]

theorem decode_buttons_single (env : hid_env) (k i : Nat) (hi : i < 12) (hk : k = 2 ^ i)
    (hlt : (button_mapping env).getD i 0 < 32) :
    decode_buttons env k = 1 <<< (button_mapping env).getD i 0 := by
  apply Nat.eq_of_testBit_eq
  intro j
  rw [Nat.one_shiftLeft, Nat.testBit_two_pow, Bool.eq_iff_iff, decode_buttons_testBit]
  simp only [decide_eq_true_eq, hk, Nat.testBit_two_pow]
  constructor
  · rintro ⟨_, i', _, h1, h2⟩
    rw [h1]; exact h2
  · intro h
    exact ⟨h ▸ hlt, i, hi, rfl, h⟩

theorem memcpy_getD (dst src : List Nat) (n i : Nat) (hn : src.length = n) (hi : i < n) :
    (memcpy dst src n).getD i 0 = src.getD i 0 := by
  unfold memcpy
  rw [List.take_of_length_le (by omega), List.getD_eq_getElem?_getD,
    List.getD_eq_getElem?_getD, List.getElem?_append_left (by omega)]

theorem packet_handler_single (env : hid_env) (pad : gca_pad_t) (packet : List Nat) (i : Nat)
    (hlen : packet.length = 9) (hi : i < 12)
    (hf : packet.getD 3 0 ||| (packet.getD 4 0 <<< 8) = 2 ^ i)
    (hlt : (button_mapping env).getD i 0 < 32) :
    (wiiu_gca_packet_handler env (some pad) (some packet) 9).map gca_pad_t.buttons =
      some (1 <<< (button_mapping env).getD i 0) := by
  have h3 := memcpy_getD pad.data packet 9 3 hlen (by decide)
  have h4 := memcpy_getD pad.data packet 9 4 hlen (by decide)
  have hk : pressed_keys (memcpy pad.data packet 9) = 2 ^ i := by
    unfold pressed_keys
    rw [h3, h4, hf]
    exact Nat.mod_eq_of_lt (Nat.pow_lt_pow_right (by decide) (by omega))
  simp only [wiiu_gca_packet_handler, gt_iff_lt, lt_self_iff_false, if_false, Option.map_some']
  rw [decode_buttons_single env _ i hi hk hlt]

/-- C7 (button decode).  Let the twelve button identifiers be pairwise distinct
and below 32.  For every pad and every 9-byte packet `wiiu_gca_packet_handler`
stores a button mask in which, for each `i < 12`, the bit of the `i`-th entry of
the table `[A, B, X, Y, LEFT, RIGHT, DOWN, UP, START, SELECT, R, L]` equals bit
`i` of the field `packet[3] | packet[4] << 8`, and in which every set bit is the
bit of a table entry whose field bit is set; a 9-byte packet with the field
`0x0001` gives exactly the bit of A and one with the field `0x0800` exactly the
bit of L. -/
theorem button_decode (env : hid_env) (pad : gca_pad_t) (packet : List Nat)
    (hlen : packet.length = 9) (hnodup : (button_mapping env).Nodup)
    (hlt : ∀ b ∈ button_mapping env, b < 32) :
    button_mapping env =
      [env.RETRO_DEVICE_ID_JOYPAD_A, env.RETRO_DEVICE_ID_JOYPAD_B,
       env.RETRO_DEVICE_ID_JOYPAD_X, env.RETRO_DEVICE_ID_JOYPAD_Y,
       env.RETRO_DEVICE_ID_JOYPAD_LEFT, env.RETRO_DEVICE_ID_JOYPAD_RIGHT,
       env.RETRO_DEVICE_ID_JOYPAD_DOWN, env.RETRO_DEVICE_ID_JOYPAD_UP,
       env.RETRO_DEVICE_ID_JOYPAD_START, env.RETRO_DEVICE_ID_JOYPAD_SELECT,
       env.RETRO_DEVICE_ID_JOYPAD_R, env.RETRO_DEVICE_ID_JOYPAD_L] ∧
    (∃ pad' : gca_pad_t,
      wiiu_gca_packet_handler env (some pad) (some packet) 9 = some pad' ∧
      (∀ i < 12, pad'.buttons.testBit ((button_mapping env).getD i 0) =
        (packet.getD 3 0 ||| (packet.getD 4 0 <<< 8)).testBit i) ∧
      (∀ j, pad'.buttons.testBit j = true →
        ∃ i < 12, j = (button_mapping env).getD i 0 ∧
          (packet.getD 3 0 ||| (packet.getD 4 0 <<< 8)).testBit i = true)) ∧
    (∀ q : List Nat, q.length = 9 → q.getD 3 0 ||| (q.getD 4 0 <<< 8) = 0x0001 →
      (wiiu_gca_packet_handler env (some pad) (some q) 9).map gca_pad_t.buttons =
        some (1 <<< env.RETRO_DEVICE_ID_JOYPAD_A)) ∧
    (∀ q : List Nat, q.length = 9 → q.getD 3 0 ||| (q.getD 4 0 <<< 8) = 0x0800 →
      (wiiu_gca_packet_handler env (some pad) (some q) 9).map gca_pad_t.buttons =
        some (1 <<< env.RETRO_DEVICE_ID_JOYPAD_L)) := by
  have h3 := memcpy_getD pad.data packet 9 3 hlen (by decide)
  have h4 := memcpy_getD pad.data packet 9 4 hlen (by decide)
  have hbit : ∀ i < 12, (pressed_keys (memcpy pad.data packet 9)).testBit i =
      (packet.getD 3 0 ||| (packet.getD 4 0 <<< 8)).testBit i := by
    intro i hi
    rw [pressed_keys_testBit _ i hi, h3, h4]
  have hmem : ∀ i < 12, (button_mapping env).getD i 0 < 32 := by
    intro i hi
    have hi' : i < (button_mapping env).length := hi
    rw [List.getD_eq_getElem _ _ hi']
    exact hlt _ (List.getElem_mem hi')
  refine ⟨rfl, ⟨{ pad with data := memcpy pad.data packet 9,
                           buttons := decode_buttons env
                             (pressed_keys (memcpy pad.data packet 9)) }, ?_, ?_, ?_⟩, ?_, ?_⟩
  · simp [wiiu_gca_packet_handler]
  · intro i hi
    rw [Bool.eq_iff_iff, ← hbit i hi]
    show (decode_buttons env _).testBit _ = true ↔ _
    rw [decode_buttons_testBit]
    constructor
    · rintro ⟨_, i', hi', h1, h2⟩
      rw [← button_mapping_inj env hnodup i' i hi' hi h2]; exact h1
    · intro h
      exact ⟨hmem i hi, i, hi, h, rfl⟩
  · intro j hj
    obtain ⟨_, i, hi, h1, h2⟩ := (decode_buttons_testBit env _ j).mp hj
    exact ⟨i, hi, h2.symm, (hbit i hi) ▸ h1⟩
  · intro q hq hf
    exact packet_handler_single env pad q 0 hq (by decide) hf (hmem 0 (by decide))
  · intro q hq hf
    exact packet_handler_single env pad q 11 hq (by decide) hf (hmem 11 (by decide))

/-- C7, run: the libretro identifiers and a packet with A and L pressed. -/
theorem button_decode_witness :
    button_mapping (libretro_env 4) =
      [(libretro_env 4).RETRO_DEVICE_ID_JOYPAD_A, (libretro_env 4).RETRO_DEVICE_ID_JOYPAD_B,
       (libretro_env 4).RETRO_DEVICE_ID_JOYPAD_X, (libretro_env 4).RETRO_DEVICE_ID_JOYPAD_Y,
       (libretro_env 4).RETRO_DEVICE_ID_JOYPAD_LEFT,
       (libretro_env 4).RETRO_DEVICE_ID_JOYPAD_RIGHT,
       (libretro_env 4).RETRO_DEVICE_ID_JOYPAD_DOWN, (libretro_env 4).RETRO_DEVICE_ID_JOYPAD_UP,
       (libretro_env 4).RETRO_DEVICE_ID_JOYPAD_START,
       (libretro_env 4).RETRO_DEVICE_ID_JOYPAD_SELECT,
       (libretro_env 4).RETRO_DEVICE_ID_JOYPAD_R, (libretro_env 4).RETRO_DEVICE_ID_JOYPAD_L] ∧
    (∃ pad' : gca_pad_t,
      wiiu_gca_packet_handler (libretro_env 4) (some (wiiu_gca_pad_init 0))
        (some sample_packet) 9 = some pad' ∧
      (∀ i < 12, pad'.buttons.testBit ((button_mapping (libretro_env 4)).getD i 0) =
        (sample_packet.getD 3 0 ||| (sample_packet.getD 4 0 <<< 8)).testBit i) ∧
      (∀ j, pad'.buttons.testBit j = true →
        ∃ i < 12, j = (button_mapping (libretro_env 4)).getD i 0 ∧
          (sample_packet.getD 3 0 ||| (sample_packet.getD 4 0 <<< 8)).testBit i = true)) ∧
    (∀ q : List Nat, q.length = 9 → q.getD 3 0 ||| (q.getD 4 0 <<< 8) = 0x0001 →
      (wiiu_gca_packet_handler (libretro_env 4) (some (wiiu_gca_pad_init 0))
        (some q) 9).map gca_pad_t.buttons =
        some (1 <<< (libretro_env 4).RETRO_DEVICE_ID_JOYPAD_A)) ∧
    (∀ q : List Nat, q.length = 9 → q.getD 3 0 ||| (q.getD 4 0 <<< 8) = 0x0800 →
      (wiiu_gca_packet_handler (libretro_env 4) (some (wiiu_gca_pad_init 0))
        (some q) 9).map gca_pad_t.buttons =
        some (1 <<< (libretro_env 4).RETRO_DEVICE_ID_JOYPAD_L)) :=
  button_decode (libretro_env 4) (wiiu_gca_pad_init 0) sample_packet (by decide) (by decide)
    (by decide)

/-! ## The axis decoder -/

/-- C8 (axis decode).  For every pad, every axis `k < 4` and every byte
`b < 256` stored at offset `5 + k` of the pad data, `wiiu_gca_get_axis` returns
the value of the spec's formula `spec_axis k b` (0 when the magnitude of `v`
exceeds `0x1000`, `v` otherwise), and that value is a signed 16-bit number; on
axis 1 the bytes `0x80` and `0xFF` both give 0. -/
theorem axis_decode (pad : gca_pad_t) (k b : Nat) (hk : k < 4) (hb : b < 256)
    (hbyte : pad.data.getD (5 + k) 0 = b) :
    wiiu_gca_get_axis (some pad) k = spec_axis k b ∧
    -32768 ≤ wiiu_gca_get_axis (some pad) k ∧ wiiu_gca_get_axis (some pad) k ≤ 32767 ∧
    (∀ q : gca_pad_t, q.data.getD 6 0 = 0x80 → wiiu_gca_get_axis (some q) 1 = 0) ∧
    (∀ q : gca_pad_t, q.data.getD 6 0 = 0xFF → wiiu_gca_get_axis (some q) 1 = 0) := by
  have hk' : ¬ k ≥ 4 := by omega
  have hsh : ((b <<< 8 : Nat) : Int) = (b : Int) * 256 := by
    rw [Nat.shiftLeft_eq]; norm_num
  have key : wiiu_gca_get_axis (some pad) k = spec_axis k b := by
    simp only [wiiu_gca_get_axis, spec_axis, to_int16_t, hbyte, hk', if_false, hsh]
    split_ifs <;> omega
  refine ⟨key, ?_, ?_, ?_, ?_⟩
  · rw [key]; simp only [spec_axis, hsh]; split_ifs <;> omega
  · rw [key]; simp only [spec_axis, hsh]; split_ifs <;> omega
  · intro q hq
    simp only [wiiu_gca_get_axis, hq]
    decide
  · intro q hq
    simp only [wiiu_gca_get_axis, hq]
    decide

/-- C8, run: axis 1 of a pad that holds `sample_packet`, whose byte at offset 6
is `0x70`. -/
theorem axis_decode_witness :
    wiiu_gca_get_axis (some { data := sample_packet, slot := 0, buttons := 0, name := none }) 1
      = spec_axis 1 0x70 ∧
    -32768 ≤ wiiu_gca_get_axis
      (some { data := sample_packet, slot := 0, buttons := 0, name := none }) 1 ∧
    wiiu_gca_get_axis (some { data := sample_packet, slot := 0, buttons := 0, name := none }) 1
      ≤ 32767 ∧
    (∀ q : gca_pad_t, q.data.getD 6 0 = 0x80 → wiiu_gca_get_axis (some q) 1 = 0) ∧
    (∀ q : gca_pad_t, q.data.getD 6 0 = 0xFF → wiiu_gca_get_axis (some q) 1 = 0) :=
  axis_decode { data := sample_packet, slot := 0, buttons := 0, name := none } 1 0x70
    (by decide) (by decide) (by decide)

/-! ## The display name -/

theorem set_pad_name_truncated (pad : gca_pad_t) (port : Int) (h : port < 4) :
    (set_pad_name_for_port pad port).name =
      some "Nintendo Gamecube Controller [G".toList := by
  have h' : ¬ port ≥ 4 := by omega
  simp only [set_pad_name_for_port, h', if_false, snprintf, List.append_assoc]
  rw [List.take_append_of_le_length (by decide)]
  rfl

/-- C9, the code at ports 0 to 3: the name `register_pad` gives to the pad of a
fresh adapter is, for each of the four ports, the 31 characters
`Nintendo Gamecube Controller [G`, because `snprintf` is called with the size 32
and not the 45 of the buffer: the port label is cut off after `[G`.  The text
that is cut would have carried `port`, not `port + 1`: for port 0 it reads
`Nintendo Gamecube Controller [GCA Port 0]`. -/
theorem display_name_cut_off :
    (∀ p : Fin 4,
      ((register_pad (libretro_env 4) instance_ptr.gca (p.val : Int) fresh_state).2.pad_list
          0).data.bind gca_pad_t.name = some "Nintendo Gamecube Controller [G".toList) ∧
    "Nintendo Gamecube Controller [GCA Port ".toList ++ format_d 0 ++ "]".toList =
      "Nintendo Gamecube Controller [GCA Port 0]".toList := by
  decide

/-! ## Ports against each other -/

theorem final_pads_eq (env : hid_env) (w : hid_state) (buffer : List Nat) (p : Nat)
    (hon : w.gca.online = true) (hp : p < 4) :
    (wiiu_gca_handle_packet env instance_ptr.gca buffer 37 w).gca.pads p =
      (update_pad_state_body env (1 + 9 * p) (state_at_scan env buffer 37 p w)).gca.pads p := by
  rw [handle_packet_split env w buffer 37 p hon (by omega) hp]
  exact loop_pads_untouched env p _ _ _ (by omega) (by omega)

theorem body_registered_iff (env : hid_env) (i : Nat) (w : hid_state) (hq : i / 9 < 4)
    (hon : w.gca.online = true) :
    (update_pad_state_body env i w).gca.pads (i / 9) ≠ none ↔
      (w.gca.pads (i / 9) ≠ none ∧
        ¬ (w.gca.device_state.getD i 0 = 0x00 ∨ w.gca.device_state.getD i 0 = 0x04)) ∨
      (w.gca.pads (i / 9) = none ∧ w.gca.device_state.getD i 0 = 0x14 ∧
        0 ≤ env.pad_connection_find_vacant_pad w.pad_list) := by
  by_cases h14 : w.gca.device_state.getD i 0 = 0x14
  · cases hs : w.gca.pads (i / 9) with
    | none =>
      by_cases hv : env.pad_connection_find_vacant_pad w.pad_list < 0
      · rw [body_register_fail env i w h14 hs hv, hs]
        simp [-List.getD_eq_getElem?_getD]
        intro _; omega
      · rw [body_register env i w h14 hs hon (by omega), cph_gca]
        simp [h14, -List.getD_eq_getElem?_getD]; omega
    | some s =>
      rw [body_forward env i w s h14 hs, cph_gca, hs]
      simp [h14, -List.getD_eq_getElem?_getD]
  · by_cases h04 : w.gca.device_state.getD i 0 = 0x00 ∨ w.gca.device_state.getD i 0 = 0x04
    · cases hs : w.gca.pads (i / 9) with
      | none => rw [body_idle env i w h04 hs, hs]; simp [h14, -List.getD_eq_getElem?_getD]
      | some s =>
        rw [body_disconnect env i w s h04 hq hs]
        simp [h14, -List.getD_eq_getElem?_getD]
        tauto
    · have h04' := h04
      push_neg at h04
      rw [body_unknown env i w h04.1 h04.2 h14]
      simp [h04.1, h04.2, h14, -List.getD_eq_getElem?_getD]

theorem port_slice_head (buffer : List Nat) (p : Nat) :
    (port_slice buffer p).getD 0 0 = buffer.getD (1 + 9 * p) 0 := by
  simp [port_slice, List.getElem?_take, List.getElem?_drop]

/-- C10 as stated fails: the ports share the pad table.  From the same fresh
state next to a vacant one-slot table, two 37-byte buffers agree on the slice of
port 1 (status `0x14`).  With the buffer that also reports a pad on port 0, port
0 takes the slot and port 1 stays unregistered; with the buffer that reports
port 0 empty, port 1 is registered. -/
theorem port_independence_counterexample :
    port_slice buffer_port01 1 = port_slice buffer_port1 1 ∧
    buffer_port01.length = 37 ∧ buffer_port1.length = 37 ∧
    fresh_state.gca.online = true ∧ gca_wf fresh_state ∧
    (wiiu_gca_handle_packet (libretro_env 1) instance_ptr.gca buffer_port01 37
      fresh_state).gca.pads 1 = none ∧
    (wiiu_gca_handle_packet (libretro_env 1) instance_ptr.gca buffer_port1 37
      fresh_state).gca.pads 1 = some 0 := by
  refine ⟨by decide, by decide, by decide, by decide, by unfold gca_wf; decide, by decide,
    by decide⟩

/-- C10, amended.  Two runs of `wiiu_gca_handle_packet` start from online states
that agree on `pads[p]`, with 37-byte buffers that agree on the 9-byte slice of
port `p < 4`.  If, in the case that port `p` owns no pad and reports `0x14`, the
vacancy query answers alike in both runs at the moment port `p` is scanned (a
slot in both, or none in both), then port `p` owns a pad after the one run if
and only if it owns one after the other, whatever the other ports do. -/
theorem port_independence (env : hid_env) (w1 w2 : hid_state) (b1 b2 : List Nat) (p : Nat)
    (hon1 : w1.gca.online = true) (hon2 : w2.gca.online = true) (hp : p < 4)
    (hpads : w1.gca.pads p = w2.gca.pads p)
    (hl1 : b1.length = 37) (hl2 : b2.length = 37)
    (hslice : port_slice b1 p = port_slice b2 p)
    (hvac : w1.gca.pads p = none → b1.getD (1 + 9 * p) 0 = 0x14 →
      (0 ≤ env.pad_connection_find_vacant_pad (state_at_scan env b1 37 p w1).pad_list ↔
        0 ≤ env.pad_connection_find_vacant_pad (state_at_scan env b2 37 p w2).pad_list)) :
    (wiiu_gca_handle_packet env instance_ptr.gca b1 37 w1).gca.pads p ≠ none ↔
      (wiiu_gca_handle_packet env instance_ptr.gca b2 37 w2).gca.pads p ≠ none := by
  obtain ⟨ho1, hs1, -, hp1⟩ := state_at_scan_facts env w1 b1 p hl1 hp
  obtain ⟨ho2, hs2, -, hp2⟩ := state_at_scan_facts env w2 b2 p hl2 hp
  have hdiv : (1 + 9 * p) / 9 = p := by omega
  have hst : b1.getD (1 + 9 * p) 0 = b2.getD (1 + 9 * p) 0 := by
    rw [← port_slice_head, ← port_slice_head, hslice]
  have e1 := body_registered_iff env (1 + 9 * p) (state_at_scan env b1 37 p w1) (by omega)
    (ho1.trans hon1)
  have e2 := body_registered_iff env (1 + 9 * p) (state_at_scan env b2 37 p w2) (by omega)
    (ho2.trans hon2)
  rw [hdiv, hp1, hs1] at e1
  rw [hdiv, hp2, hs2, ← hpads, ← hst] at e2
  rw [final_pads_eq env w1 b1 p hon1 hp, final_pads_eq env w2 b2 p hon2 hp, e1, e2]
  constructor
  · rintro (h | ⟨h1, h2, h3⟩)
    · exact Or.inl h
    · exact Or.inr ⟨h1, h2, (hvac h1 h2).mp h3⟩
  · rintro (h | ⟨h1, h2, h3⟩)
    · exact Or.inl h
    · exact Or.inr ⟨h1, h2, (hvac h1 h2).mpr h3⟩

/-- C10 amended, run: next to a vacant four-slot table the two buffers of the
counterexample both find a vacant slot when port 1 is scanned. -/
theorem port_independence_witness :
    (wiiu_gca_handle_packet (libretro_env 4) instance_ptr.gca buffer_port01 37
      fresh_state).gca.pads 1 ≠ none ↔
    (wiiu_gca_handle_packet (libretro_env 4) instance_ptr.gca buffer_port1 37
      fresh_state).gca.pads 1 ≠ none :=
  port_independence (libretro_env 4) fresh_state fresh_state buffer_port01 buffer_port1 1
    (by decide) (by decide) (by decide) rfl (by decide) (by decide) (by decide)
    (fun _ _ => by decide)

/-! ## Releasing pads: `unregister_pad` and `wiiu_gca_free` -/

theorem unregister_eq (slot : Int) (h0 : 0 ≤ slot) (h4 : slot < 4) (w : hid_state) :
    unregister_pad instance_ptr.gca slot w =
      match w.gca.pads slot.toNat with
      | none => w
      | some s => released w slot.toNat s := by
  have h0' : ¬ slot < 0 := by omega
  have h4' : ¬ slot ≥ 4 := by omega
  simp only [unregister_pad, h0', h4', or_self, if_false, reduceCtorEq, false_or]
  rfl

theorem unregister_noop (inst : instance_ptr) (slot : Int) (w : hid_state)
    (h : inst = instance_ptr.NULL ∨ slot < 0 ∨ 4 ≤ slot ∨ w.gca.pads slot.toNat = none) :
    unregister_pad inst slot w = w := by
  unfold unregister_pad
  split_ifs with hc
  · rfl
  · have hp : w.gca.pads slot.toNat = none := by
      rcases h with h | h | h | h
      · exact absurd (Or.inl h) hc
      · exact absurd (Or.inr (Or.inl h)) hc
      · exact absurd (Or.inr (Or.inr h)) hc
      · exact h
    simp [hp]

theorem unregister_pads_self (p : Nat) (hp : p < 4) (w : hid_state) :
    (unregister_pad instance_ptr.gca (p : Int) w).gca.pads p = none := by
  rw [unregister_eq _ (by omega) (by omega), Int.toNat_ofNat]
  cases h : w.gca.pads p with
  | none => simpa using h
  | some s => simp [released]

theorem unregister_pads_other (p q : Nat) (hp : p < 4) (hq : q ≠ p) (w : hid_state) :
    (unregister_pad instance_ptr.gca (p : Int) w).gca.pads q = w.gca.pads q := by
  rw [unregister_eq _ (by omega) (by omega), Int.toNat_ofNat]
  cases h : w.gca.pads p with
  | none => rfl
  | some s => simp [released, Function.update_noteq hq]

theorem unregister_pads_sub (p q t : Nat) (hp : p < 4) (w : hid_state)
    (h : (unregister_pad instance_ptr.gca (p : Int) w).gca.pads q = some t) :
    w.gca.pads q = some t := by
  by_cases hq : q = p
  · subst hq; rw [unregister_pads_self q hp] at h; exact Option.noConfusion h
  · rwa [unregister_pads_other p q hp hq] at h

theorem unregister_flags (p : Nat) (hp : p < 4) (w : hid_state) :
    (unregister_pad instance_ptr.gca (p : Int) w).gca.online = w.gca.online ∧
    (unregister_pad instance_ptr.gca (p : Int) w).gca.device_state = w.gca.device_state := by
  rw [unregister_eq _ (by omega) (by omega)]
  split <;> exact ⟨rfl, rfl⟩

theorem unregister_conn_self (p s : Nat) (hp : p < 4) (w : hid_state)
    (h : w.gca.pads p = some s) :
    ((unregister_pad instance_ptr.gca (p : Int) w).pad_list s).connected = false ∧
    ((unregister_pad instance_ptr.gca (p : Int) w).pad_list s).data = none := by
  rw [unregister_eq _ (by omega) (by omega), Int.toNat_ofNat, h]
  simp [released]

theorem unregister_conn_mono (p t : Nat) (hp : p < 4) (w : hid_state)
    (h : (w.pad_list t).connected = false) :
    ((unregister_pad instance_ptr.gca (p : Int) w).pad_list t).connected = false := by
  rw [unregister_eq _ (by omega) (by omega), Int.toNat_ofNat]
  cases hs : w.gca.pads p with
  | none => exact h
  | some s =>
    by_cases hts : t = s
    · subst hts; simp [released]
    · simpa [released, Function.update_noteq hts] using h

theorem unregister_list_other (p t : Nat) (hp : p < 4) (w : hid_state)
    (h : w.gca.pads p ≠ some t) :
    (unregister_pad instance_ptr.gca (p : Int) w).pad_list t = w.pad_list t := by
  rw [unregister_eq _ (by omega) (by omega), Int.toNat_ofNat]
  cases hs : w.gca.pads p with
  | none => rfl
  | some s =>
    have hts : t ≠ s := fun e => h (by rw [hs, e])
    simp [released, Function.update_noteq hts]

theorem free_eq (w : hid_state) :
    wiiu_gca_free instance_ptr.gca w =
      unregister_pad instance_ptr.gca ((3 : Nat) : Int)
        (unregister_pad instance_ptr.gca ((2 : Nat) : Int)
          (unregister_pad instance_ptr.gca ((1 : Nat) : Int)
            (unregister_pad instance_ptr.gca ((0 : Nat) : Int)
              { w with gca := { w.gca with online := false } }))) := rfl

theorem free_online (w : hid_state) : (wiiu_gca_free instance_ptr.gca w).gca.online = false := by
  rw [free_eq, (unregister_flags 3 (by decide) _).1, (unregister_flags 2 (by decide) _).1,
    (unregister_flags 1 (by decide) _).1, (unregister_flags 0 (by decide) _).1]

theorem unregister_dead_mono (p t : Nat) (hp : p < 4) (w : hid_state)
    (h : (w.pad_list t).connected = false ∧ (w.pad_list t).data = none) :
    ((unregister_pad instance_ptr.gca (p : Int) w).pad_list t).connected = false ∧
    ((unregister_pad instance_ptr.gca (p : Int) w).pad_list t).data = none := by
  rw [unregister_eq _ (by omega) (by omega), Int.toNat_ofNat]
  cases hs : w.gca.pads p with
  | none => exact h
  | some s =>
    by_cases hts : t = s
    · subst hts; simp [released]
    · simpa [released, Function.update_noteq hts] using h

theorem unregister_unbound (p q t : Nat) (hp : p < 4) (w : hid_state)
    (h : w.gca.pads q ≠ some t) :
    (unregister_pad instance_ptr.gca (p : Int) w).gca.pads q ≠ some t :=
  fun e => h (unregister_pads_sub p q t hp w e)
/-- C12 (destroy).  For every state, after `wiiu_gca_free` on the instance the
`online` flag is false, each of the four ports owns nothing, every pad table
entry a port pointed to is marked disconnected and has lost its pad, every
entry no port pointed to is as before, and `device_state` is untouched. -/
theorem destroy_disconnects (w : hid_state) :
    (wiiu_gca_free instance_ptr.gca w).gca.online = false ∧
    (∀ p < 4, (wiiu_gca_free instance_ptr.gca w).gca.pads p = none) ∧
    (∀ p < 4, ∀ s, w.gca.pads p = some s →
      ((wiiu_gca_free instance_ptr.gca w).pad_list s).connected = false ∧
      ((wiiu_gca_free instance_ptr.gca w).pad_list s).data = none) ∧
    (∀ t, (∀ p < 4, w.gca.pads p ≠ some t) →
      (wiiu_gca_free instance_ptr.gca w).pad_list t = w.pad_list t) ∧
    (wiiu_gca_free instance_ptr.gca w).gca.device_state = w.gca.device_state := by
  refine ⟨free_online w, ?_, ?_, ?_, ?_⟩
  · intro p hp
    rw [free_eq]
    interval_cases p
    · rw [unregister_pads_other 3 0 (by decide) (by decide),
        unregister_pads_other 2 0 (by decide) (by decide),
        unregister_pads_other 1 0 (by decide) (by decide)]
      exact unregister_pads_self 0 (by decide) _
    · rw [unregister_pads_other 3 1 (by decide) (by decide),
        unregister_pads_other 2 1 (by decide) (by decide)]
      exact unregister_pads_self 1 (by decide) _
    · rw [unregister_pads_other 3 2 (by decide) (by decide)]
      exact unregister_pads_self 2 (by decide) _
    · exact unregister_pads_self 3 (by decide) _
  · intro p hp s hs
    have hs0 : ({ w with gca := { w.gca with online := false } } : hid_state).gca.pads p
        = some s := hs
    rw [free_eq]
    interval_cases p
    · exact unregister_dead_mono 3 s (by decide) _ (unregister_dead_mono 2 s (by decide) _
        (unregister_dead_mono 1 s (by decide) _ (unregister_conn_self 0 s (by decide) _ hs0)))
    · exact unregister_dead_mono 3 s (by decide) _ (unregister_dead_mono 2 s (by decide) _
        (unregister_conn_self 1 s (by decide) _
          ((unregister_pads_other 0 1 (by decide) (by decide) _).trans hs0)))
    · exact unregister_dead_mono 3 s (by decide) _
        (unregister_conn_self 2 s (by decide) _
          ((unregister_pads_other 1 2 (by decide) (by decide) _).trans
            ((unregister_pads_other 0 2 (by decide) (by decide) _).trans hs0)))
    · exact unregister_conn_self 3 s (by decide) _
        ((unregister_pads_other 2 3 (by decide) (by decide) _).trans
          ((unregister_pads_other 1 3 (by decide) (by decide) _).trans
            ((unregister_pads_other 0 3 (by decide) (by decide) _).trans hs0)))
  · intro t ht
    have h0 : ∀ p < 4, ({ w with gca := { w.gca with online := false } } : hid_state).gca.pads p
        ≠ some t := ht
    rw [free_eq,
      unregister_list_other 3 t (by decide) _
        (unregister_unbound 2 3 t (by decide) _ (unregister_unbound 1 3 t (by decide) _
          (unregister_unbound 0 3 t (by decide) _ (h0 3 (by decide))))),
      unregister_list_other 2 t (by decide) _
        (unregister_unbound 1 2 t (by decide) _
          (unregister_unbound 0 2 t (by decide) _ (h0 2 (by decide)))),
      unregister_list_other 1 t (by decide) _
        (unregister_unbound 0 1 t (by decide) _ (h0 1 (by decide))),
      unregister_list_other 0 t (by decide) _ (h0 0 (by decide))]
  · rw [free_eq, (unregister_flags 3 (by decide) _).2, (unregister_flags 2 (by decide) _).2,
      (unregister_flags 1 (by decide) _).2, (unregister_flags 0 (by decide) _).2]

/-- C13 (offline instance).  When the instance pointer is `NULL` or the `online`
flag is false, `wiiu_gca_handle_packet` leaves the whole memory as it is for
every buffer and every size, `update_pad_state` does the same, and
`register_pad` returns `NULL` for every port without touching the memory; in
particular no packet changes anything once `wiiu_gca_free` has run. -/
theorem offline_ignores_packets (env : hid_env) (data : instance_ptr) (buffer : List Nat)
    (size : Nat) (w : hid_state) (h : data = instance_ptr.NULL ∨ w.gca.online = false) :
    wiiu_gca_handle_packet env data buffer size w = w ∧
    update_pad_state env data w = w ∧
    (∀ port : Int, register_pad env data port w = (none, w)) ∧
    (∀ (w0 : hid_state) (b : List Nat) (n : Nat),
      wiiu_gca_handle_packet env instance_ptr.gca b n (wiiu_gca_free instance_ptr.gca w0) =
        wiiu_gca_free instance_ptr.gca w0) := by
  refine ⟨by simp [wiiu_gca_handle_packet, h], by simp [update_pad_state, h],
    fun port => by simp [register_pad, h], fun w0 b n => ?_⟩
  simp [wiiu_gca_handle_packet, free_online w0]

/-- C13, run: the adapter whose port 0 owned slot 0, torn down, receives the
packet that reports a pad on port 0. -/
theorem offline_ignores_packets_witness :
    wiiu_gca_handle_packet (libretro_env 4) instance_ptr.gca buffer_port0 37
      (torn_down_state 4) = torn_down_state 4 ∧
    update_pad_state (libretro_env 4) instance_ptr.gca (torn_down_state 4) =
      torn_down_state 4 ∧
    (∀ port : Int, register_pad (libretro_env 4) instance_ptr.gca port (torn_down_state 4) =
      (none, torn_down_state 4)) ∧
    (∀ (w0 : hid_state) (b : List Nat) (n : Nat),
      wiiu_gca_handle_packet (libretro_env 4) instance_ptr.gca b n
          (wiiu_gca_free instance_ptr.gca w0) =
        wiiu_gca_free instance_ptr.gca w0) :=
  offline_ignores_packets (libretro_env 4) instance_ptr.gca buffer_port0 37 (torn_down_state 4)
    (Or.inr (by decide))

/-- C14 (oversized pad packet).  For every pad and every packet,
`wiiu_gca_packet_handler` called with a size greater than 9 leaves the pad as it
is: `data`, `buttons`, `slot` and `name`. -/
theorem oversized_packet_dropped (env : hid_env) (pad : gca_pad_t)
    (packet : Option (List Nat)) (size : Nat) (h : size > 9) :
    wiiu_gca_packet_handler env (some pad) packet size = some pad := by
  cases packet with
  | none => rfl
  | some bytes => simp [wiiu_gca_packet_handler, h]

/-- C14, run: ten bytes offered to a pad that holds `sample_packet`. -/
theorem oversized_packet_dropped_witness :
    wiiu_gca_packet_handler (libretro_env 4)
      (some { data := sample_packet, slot := 0, buttons := 0x500, name := none })
      (some (List.replicate 10 0xFF)) 10 =
      some { data := sample_packet, slot := 0, buttons := 0x500, name := none } :=
  oversized_packet_dropped (libretro_env 4)
    { data := sample_packet, slot := 0, buttons := 0x500, name := none }
    (some (List.replicate 10 0xFF)) 10 (by decide)

/-- C15 (unregister is safe to repeat).  `unregister_pad` leaves the memory as it
is when the instance pointer is `NULL`, when the index is outside 0..3, or when
the port owns nothing.  On a port in 0..3 that points to the entry `s` it empties
the port, marks `s` disconnected and clears its pad, and touches no other port
and no other entry.  In every state a second `unregister_pad` on the same index
changes nothing after the first. -/
theorem unregister_repeat (inst : instance_ptr) (slot : Int) (w : hid_state) :
    ((inst = instance_ptr.NULL ∨ slot < 0 ∨ 4 ≤ slot ∨ w.gca.pads slot.toNat = none) →
      unregister_pad inst slot w = w) ∧
    (∀ p < 4, ∀ s, w.gca.pads p = some s →
      (unregister_pad instance_ptr.gca (p : Int) w).gca.pads p = none ∧
      ((unregister_pad instance_ptr.gca (p : Int) w).pad_list s).connected = false ∧
      ((unregister_pad instance_ptr.gca (p : Int) w).pad_list s).data = none ∧
      (∀ q, q ≠ p → (unregister_pad instance_ptr.gca (p : Int) w).gca.pads q = w.gca.pads q) ∧
      (∀ t, t ≠ s → (unregister_pad instance_ptr.gca (p : Int) w).pad_list t = w.pad_list t)) ∧
    unregister_pad inst slot (unregister_pad inst slot w) = unregister_pad inst slot w := by
  refine ⟨unregister_noop inst slot w, ?_, ?_⟩
  · intro p hp s hs
    refine ⟨unregister_pads_self p hp w, (unregister_conn_self p s hp w hs).1,
      (unregister_conn_self p s hp w hs).2, fun q hq => unregister_pads_other p q hp hq w,
      fun t ht => unregister_list_other p t hp w ?_⟩
    intro e
    rw [hs] at e
    exact ht (Option.some.inj e).symm
  · by_cases hc : inst = instance_ptr.NULL ∨ slot < 0 ∨ 4 ≤ slot
    · have h := unregister_noop inst slot w (by tauto)
      rw [h, h]
    · push_neg at hc
      have hi : inst = instance_ptr.gca := by
        cases inst
        · exact absurd rfl hc.1
        · rfl
      subst hi
      apply unregister_noop
      right; right; right
      have h := unregister_pads_self slot.toNat (by omega) w
      rw [Int.toNat_of_nonneg (by omega)] at h
      exact h

/-! ## Short buffers -/

/-- C18 (short buffer).  In an online state whose `device_state` has its 37
bytes, a buffer of `n ≤ 37` bytes leaves `device_state` at 37 bytes, with the
buffer in its first `n` bytes and the old bytes from offset `n` on.  The call is
the scan of `update_pad_state` run on that merged array, and a port whose status
byte lies at an offset of `n` or more is scanned with the byte retained from
before the call. -/
theorem short_buffer_prefix (env : hid_env) (w : hid_state) (buffer : List Nat) (n : Nat)
    (hon : w.gca.online = true) (hlen : w.gca.device_state.length = 37)
    (hb : buffer.length = n) (hn : n ≤ 37) :
    (wiiu_gca_handle_packet env instance_ptr.gca buffer n w).gca.device_state.length = 37 ∧
    (wiiu_gca_handle_packet env instance_ptr.gca buffer n w).gca.device_state.take n = buffer ∧
    (wiiu_gca_handle_packet env instance_ptr.gca buffer n w).gca.device_state.drop n =
      w.gca.device_state.drop n ∧
    wiiu_gca_handle_packet env instance_ptr.gca buffer n w =
      update_pad_state env instance_ptr.gca
        { w with gca := { w.gca with
            device_state := (buffer ++ w.gca.device_state.drop n) } } ∧
    (∀ p < 4, n ≤ 1 + 9 * p →
      (state_at_scan env buffer n p w).gca.device_state.getD (1 + 9 * p) 0 =
        w.gca.device_state.getD (1 + 9 * p) 0) ∧
    (∀ p < 4, 1 + 9 * p < n →
      (state_at_scan env buffer n p w).gca.device_state.getD (1 + 9 * p) 0 =
        buffer.getD (1 + 9 * p) 0) := by
  have hm : memcpy w.gca.device_state buffer n = buffer ++ w.gca.device_state.drop n := by
    unfold memcpy; rw [List.take_of_length_le (by omega)]
  have hn' : ¬ n > 37 := by omega
  have hds : (wiiu_gca_handle_packet env instance_ptr.gca buffer n w).gca.device_state =
      buffer ++ w.gca.device_state.drop n := by
    simp only [wiiu_gca_handle_packet, update_pad_state, hon, hn', false_or,
      Bool.true_eq_false, if_false, reduceCtorEq]
    rw [(loop_device_state env 37 1 _).1, hm]
  have hscan : ∀ p, (state_at_scan env buffer n p w).gca.device_state =
      buffer ++ w.gca.device_state.drop n := by
    intro p
    unfold state_at_scan
    rw [(loop_device_state env p 1 _).1, hm]
  refine ⟨?_, ?_, ?_, ?_, ?_, ?_⟩
  · rw [hds, List.length_append, List.length_drop]; omega
  · rw [hds, List.take_left' hb]
  · rw [hds, List.drop_left' hb]
  · simp only [wiiu_gca_handle_packet, hon, hn', false_or, Bool.true_eq_false, if_false,
      reduceCtorEq, hm]
  · intro p _ hp
    rw [hscan, List.getD_eq_getElem?_getD, List.getD_eq_getElem?_getD,
      List.getElem?_append_right (by omega), List.getElem?_drop]
    congr 2
    omega
  · intro p _ hp
    rw [hscan, List.getD_eq_getElem?_getD, List.getD_eq_getElem?_getD,
      List.getElem?_append_left (by omega)]

/-- C18, run: the adapter whose port 0 owns slot 0 receives the single byte 0;
every status byte is the retained one, so port 0 stays connected. -/
theorem short_buffer_prefix_witness :
    (wiiu_gca_handle_packet (libretro_env 4) instance_ptr.gca [0] 1
      (port0_state 4)).gca.device_state.length = 37 ∧
    (wiiu_gca_handle_packet (libretro_env 4) instance_ptr.gca [0] 1
      (port0_state 4)).gca.device_state.take 1 = [0] ∧
    (wiiu_gca_handle_packet (libretro_env 4) instance_ptr.gca [0] 1
      (port0_state 4)).gca.device_state.drop 1 = (port0_state 4).gca.device_state.drop 1 ∧
    wiiu_gca_handle_packet (libretro_env 4) instance_ptr.gca [0] 1 (port0_state 4) =
      update_pad_state (libretro_env 4) instance_ptr.gca
        { (port0_state 4) with gca := { (port0_state 4).gca with
            device_state := ([0] ++ (port0_state 4).gca.device_state.drop 1) } } ∧
    (∀ p < 4, 1 ≤ 1 + 9 * p →
      (state_at_scan (libretro_env 4) [0] 1 p (port0_state 4)).gca.device_state.getD
          (1 + 9 * p) 0 =
        (port0_state 4).gca.device_state.getD (1 + 9 * p) 0) ∧
    (∀ p < 4, 1 + 9 * p < 1 →
      (state_at_scan (libretro_env 4) [0] 1 p (port0_state 4)).gca.device_state.getD
          (1 + 9 * p) 0 =
        ([0] : List Nat).getD (1 + 9 * p) 0) :=
  short_buffer_prefix (libretro_env 4) (port0_state 4) [0] 1 (by decide) (by decide)
    (by decide) (by decide)

/-! ## Inverted axes -/

/-- C20 (axis inversion).  For every byte `b < 256`, `wiiu_gca_get_axis` on an
inverted axis (0 or 2) that reads `b` is the negation of `wiiu_gca_get_axis` on
a plain axis (1 or 3) that reads `b`.  At `b = 0` the inverted value `0x8000`
wraps to `-0x8000` as an `int16_t` and both axes return 0.  On every axis the
result is non-zero only when `112 ≤ b ≤ 144` and `b ≠ 128`. -/
theorem axis_inversion_negation (pad pad' : gca_pad_t) (ki kn b : Nat)
    (hki : ki = 0 ∨ ki = 2) (hkn : kn = 1 ∨ kn = 3) (hb : b < 256)
    (h1 : pad.data.getD (5 + ki) 0 = b) (h2 : pad'.data.getD (5 + kn) 0 = b) :
    wiiu_gca_get_axis (some pad) ki = - wiiu_gca_get_axis (some pad') kn ∧
    to_int16_t (0x8000 - (((0 : Nat) <<< 8 : Nat) : Int)) = -0x8000 ∧
    (∀ k < 4, ∀ q : gca_pad_t, q.data.getD (5 + k) 0 = 0 →
      wiiu_gca_get_axis (some q) k = 0) ∧
    (∀ k < 4, ∀ q : gca_pad_t, q.data.getD (5 + k) 0 = b →
      wiiu_gca_get_axis (some q) k ≠ 0 → 112 ≤ b ∧ b ≤ 144 ∧ b ≠ 128) := by
  have hsh : ((b <<< 8 : Nat) : Int) = (b : Int) * 256 := by
    rw [Nat.shiftLeft_eq]; norm_num
  have hki' : ¬ ki ≥ 4 := by omega
  have hkn' : ¬ kn ≥ 4 := by omega
  refine ⟨?_, by decide, ?_, ?_⟩
  · simp only [wiiu_gca_get_axis, h1, h2, hki', hkn', if_false, hsh, to_int16_t]
    split_ifs <;> omega
  · intro k hk q hq
    interval_cases k <;> simp only [wiiu_gca_get_axis, hq] <;> decide
  · intro k hk q hq hne
    have hk' : ¬ k ≥ 4 := by omega
    simp only [wiiu_gca_get_axis, hq, hk', if_false, hsh, to_int16_t] at hne
    split_ifs at hne <;> omega

/-- C20, run: the byte `0x70` on the inverted axis 0 and on the plain axis 1. -/
theorem axis_inversion_negation_witness :
    wiiu_gca_get_axis (some { data := [0x14, 0, 0, 0, 0, 0x70, 0x70, 0, 0], slot := 0,
                              buttons := 0, name := none }) 0 =
      - wiiu_gca_get_axis (some { data := [0x14, 0, 0, 0, 0, 0x70, 0x70, 0, 0], slot := 0,
                                  buttons := 0, name := none }) 1 ∧
    to_int16_t (0x8000 - (((0 : Nat) <<< 8 : Nat) : Int)) = -0x8000 ∧
    (∀ k < 4, ∀ q : gca_pad_t, q.data.getD (5 + k) 0 = 0 →
      wiiu_gca_get_axis (some q) k = 0) ∧
    (∀ k < 4, ∀ q : gca_pad_t, q.data.getD (5 + k) 0 = 0x70 →
      wiiu_gca_get_axis (some q) k ≠ 0 → 112 ≤ 0x70 ∧ 0x70 ≤ 144 ∧ 0x70 ≠ 128) :=
  axis_inversion_negation
    { data := [0x14, 0, 0, 0, 0, 0x70, 0x70, 0, 0], slot := 0, buttons := 0, name := none }
    { data := [0x14, 0, 0, 0, 0, 0x70, 0x70, 0, 0], slot := 0, buttons := 0, name := none }
    0 1 0x70 (Or.inl rfl) (Or.inl rfl) (by decide) (by decide) (by decide)

/-! ## The low twelve bits -/

theorem packet_handler_buttons (env : hid_env) (pad : gca_pad_t) (packet : List Nat)
    (hlen : packet.length = 9) :
    (wiiu_gca_packet_handler env (some pad) (some packet) 9).map gca_pad_t.buttons =
      some (decode_buttons env (pressed_keys (memcpy pad.data packet 9))) ∧
    ∀ i < 12, (pressed_keys (memcpy pad.data packet 9)).testBit i =
      (packet_field packet).testBit i := by
  have h3 := memcpy_getD pad.data packet 9 3 hlen (by decide)
  have h4 := memcpy_getD pad.data packet 9 4 hlen (by decide)
  refine ⟨by simp [wiiu_gca_packet_handler], fun i hi => ?_⟩
  rw [pressed_keys_testBit _ i hi, h3, h4, packet_field]

theorem decode_buttons_congr (env : hid_env) (k1 k2 : Nat)
    (h : ∀ i < 12, k1.testBit i = k2.testBit i) :
    decode_buttons env k1 = decode_buttons env k2 := by
  apply Nat.eq_of_testBit_eq
  intro j
  rw [Bool.eq_iff_iff, decode_buttons_testBit, decode_buttons_testBit]
  constructor
  · rintro ⟨hj, i, hi, h1, h2⟩; exact ⟨hj, i, hi, (h i hi) ▸ h1, h2⟩
  · rintro ⟨hj, i, hi, h1, h2⟩; exact ⟨hj, i, hi, (h i hi).symm ▸ h1, h2⟩

theorem decode_buttons_bit (env : hid_env) (k i : Nat) (hi : i < 12)
    (hnodup : (button_mapping env).Nodup) (hlt : ∀ b ∈ button_mapping env, b < 32) :
    (decode_buttons env k).testBit ((button_mapping env).getD i 0) = k.testBit i := by
  have hi' : i < (button_mapping env).length := hi
  have hmem : (button_mapping env).getD i 0 < 32 := by
    rw [List.getD_eq_getElem _ _ hi']
    exact hlt _ (List.getElem_mem hi')
  rw [Bool.eq_iff_iff, decode_buttons_testBit]
  constructor
  · rintro ⟨_, i', hi'', h1, h2⟩
    rw [← button_mapping_inj env hnodup i' i hi'' hi h2]; exact h1
  · intro h
    exact ⟨hmem, i, hi, h, rfl⟩

theorem decode_buttons_card (env : hid_env) (k : Nat)
    (hnodup : (button_mapping env).Nodup) (hlt : ∀ b ∈ button_mapping env, b < 32) :
    (set_bits (decode_buttons env k) 32).card = (set_bits k 12).card := by
  have himg : set_bits (decode_buttons env k) 32 =
      (set_bits k 12).image (fun i => (button_mapping env).getD i 0) := by
    ext j
    simp only [set_bits, Finset.mem_filter, Finset.mem_range, Finset.mem_image]
    constructor
    · rintro ⟨_, hj⟩
      obtain ⟨_, i, hi, h1, h2⟩ := (decode_buttons_testBit env k j).mp hj
      exact ⟨i, ⟨hi, h1⟩, h2⟩
    · rintro ⟨i, ⟨hi, h1⟩, h2⟩
      have hb := decode_buttons_bit env k i hi hnodup hlt
      rw [h2, h1] at hb
      exact ⟨((decode_buttons_testBit env k j).mp hb).1, hb⟩
  rw [himg, Finset.card_image_of_injOn]
  intro a ha b hb hab
  simp only [set_bits, Finset.coe_filter, Finset.mem_range, Set.mem_setOf_eq] at ha hb
  exact button_mapping_inj env hnodup a b ha.1 hb.1 hab

theorem field_bit (b3 b4 i : Nat) :
    (b3 ||| (b4 <<< 8)).testBit i = (b3.testBit i || (decide (8 ≤ i) && b4.testBit (i - 8))) := by
  rw [Nat.testBit_or, Nat.testBit_shiftLeft]

theorem mod16_bit (a b j : Nat) (h : a % 16 = b % 16) (hj : j < 4) :
    a.testBit j = b.testBit j := by
  have ha := Nat.testBit_mod_two_pow a 4 j
  have hb := Nat.testBit_mod_two_pow b 4 j
  simp only [hj, decide_True, Bool.true_and] at ha hb
  rw [← ha, ← hb]
  norm_num
  rw [h]

/-- C16 (the low 12 bits).  Let the twelve button identifiers be pairwise
distinct and below 32.  For every two 9-byte packets `wiiu_gca_packet_handler`
stores the same button mask for both if and only if their fields
`packet[3] | packet[4] << 8` agree on the bits 0 to 11.  Hence two packets with
the same byte 3 and the same low four bits of byte 4 give the same mask,
whatever their other bytes and the upper four bits of byte 4 are.  The number of
set bits of the mask is the number of set bits among the bits 0 to 11 of the
field. -/
theorem low_twelve_bits (env : hid_env) (pad1 pad2 : gca_pad_t) (q1 q2 : List Nat)
    (h1 : q1.length = 9) (h2 : q2.length = 9) (hnodup : (button_mapping env).Nodup)
    (hlt : ∀ b ∈ button_mapping env, b < 32) :
    ((wiiu_gca_packet_handler env (some pad1) (some q1) 9).map gca_pad_t.buttons =
        (wiiu_gca_packet_handler env (some pad2) (some q2) 9).map gca_pad_t.buttons ↔
      ∀ i < 12, (packet_field q1).testBit i = (packet_field q2).testBit i) ∧
    (q1.getD 3 0 = q2.getD 3 0 → q1.getD 4 0 % 16 = q2.getD 4 0 % 16 →
      (wiiu_gca_packet_handler env (some pad1) (some q1) 9).map gca_pad_t.buttons =
        (wiiu_gca_packet_handler env (some pad2) (some q2) 9).map gca_pad_t.buttons) ∧
    (∃ mask : Nat,
      (wiiu_gca_packet_handler env (some pad1) (some q1) 9).map gca_pad_t.buttons = some mask ∧
      (set_bits mask 32).card = (set_bits (packet_field q1) 12).card) := by
  obtain ⟨e1, b1⟩ := packet_handler_buttons env pad1 q1 h1
  obtain ⟨e2, b2⟩ := packet_handler_buttons env pad2 q2 h2
  have hiff : decode_buttons env (pressed_keys (memcpy pad1.data q1 9)) =
        decode_buttons env (pressed_keys (memcpy pad2.data q2 9)) ↔
      ∀ i < 12, (packet_field q1).testBit i = (packet_field q2).testBit i := by
    constructor
    · intro h i hi
      rw [← b1 i hi, ← b2 i hi, ← decode_buttons_bit env _ i hi hnodup hlt, h,
        decode_buttons_bit env _ i hi hnodup hlt]
    · intro h
      apply decode_buttons_congr
      intro i hi
      rw [b1 i hi, b2 i hi, h i hi]
  refine ⟨?_, ?_, ?_⟩
  · rw [e1, e2, Option.some_inj]; exact hiff
  · intro h3 h4
    rw [e1, e2, Option.some_inj, hiff]
    intro i hi
    unfold packet_field
    rw [field_bit, field_bit, h3]
    by_cases h8 : 8 ≤ i
    · rw [mod16_bit _ _ (i - 8) h4 (by omega)]
    · simp [h8]
  · refine ⟨_, e1, ?_⟩
    rw [decode_buttons_card env _ hnodup hlt]
    congr 1
    ext j
    simp only [set_bits, Finset.mem_filter, Finset.mem_range]
    constructor
    · rintro ⟨hj, h⟩; exact ⟨hj, (b1 j hj) ▸ h⟩
    · rintro ⟨hj, h⟩; exact ⟨hj, (b1 j hj).symm ▸ h⟩

/-- C16, run: `sample_packet` (field `0x0801`) against a packet with field
`0xF801` and other bytes elsewhere. -/
theorem low_twelve_bits_witness :
    ((wiiu_gca_packet_handler (libretro_env 4) (some (wiiu_gca_pad_init 0))
          (some sample_packet) 9).map gca_pad_t.buttons =
        (wiiu_gca_packet_handler (libretro_env 4) (some (wiiu_gca_pad_init 1))
          (some sample_packet_other) 9).map gca_pad_t.buttons ↔
      ∀ i < 12, (packet_field sample_packet).testBit i =
        (packet_field sample_packet_other).testBit i) ∧
    (sample_packet.getD 3 0 = sample_packet_other.getD 3 0 →
      sample_packet.getD 4 0 % 16 = sample_packet_other.getD 4 0 % 16 →
      (wiiu_gca_packet_handler (libretro_env 4) (some (wiiu_gca_pad_init 0))
          (some sample_packet) 9).map gca_pad_t.buttons =
        (wiiu_gca_packet_handler (libretro_env 4) (some (wiiu_gca_pad_init 1))
          (some sample_packet_other) 9).map gca_pad_t.buttons) ∧
    (∃ mask : Nat,
      (wiiu_gca_packet_handler (libretro_env 4) (some (wiiu_gca_pad_init 0))
        (some sample_packet) 9).map gca_pad_t.buttons = some mask ∧
      (set_bits mask 32).card = (set_bits (packet_field sample_packet) 12).card) :=
  low_twelve_bits (libretro_env 4) (wiiu_gca_pad_init 0) (wiiu_gca_pad_init 1) sample_packet
    sample_packet_other (by decide) (by decide) (by decide) (by decide)

/-! ## From the adapter buffer to the pad -/

theorem axis_eq_spec (pad : gca_pad_t) (k b : Nat) (hk : k < 4) (hb : b < 256)
    (hbyte : pad.data.getD (5 + k) 0 = b) :
    wiiu_gca_get_axis (some pad) k = spec_axis k b := by
  have hk' : ¬ k ≥ 4 := by omega
  have hsh : ((b <<< 8 : Nat) : Int) = (b : Int) * 256 := by
    rw [Nat.shiftLeft_eq]; norm_num
  simp only [wiiu_gca_get_axis, spec_axis, to_int16_t, hbyte, hk', if_false, hsh]
  split_ifs <;> omega

theorem port_slice_getD (buffer : List Nat) (p j : Nat) (hj : j < 9) :
    (port_slice buffer p).getD j 0 = buffer.getD (1 + 9 * p + j) 0 := by
  simp [port_slice, List.getElem?_take, List.getElem?_drop, hj]

theorem connected_port_entry (env : hid_env) (w : hid_state) (buffer : List Nat) (p s : Nat)
    (hv : vacant_sound env) (hwf : gca_wf w) (hon : w.gca.online = true) (hp : p < 4)
    (hlen : buffer.length = 37) (hst : buffer.getD (1 + 9 * p) 0 = 0x14)
    (hreg : (wiiu_gca_handle_packet env instance_ptr.gca buffer 37 w).gca.pads p = some s) :
    ∃ pad : gca_pad_t,
      ((wiiu_gca_handle_packet env instance_ptr.gca buffer 37 w).pad_list s).data = some pad ∧
      pad.data = port_slice buffer p ∧
      pad.buttons = decode_buttons env (pressed_keys (port_slice buffer p)) := by
  obtain ⟨hon1, hst1, -, hpads1⟩ := state_at_scan_facts env w buffer p hlen hp
  have hwf1 := state_at_scan_wf env w buffer p hv hwf hon hlen
  have hdiv : (1 + 9 * p) / 9 = p := by omega
  obtain ⟨ht1, ht2⟩ := handle_packet_tail env w buffer p hv hwf hon hlen hp
  rw [ht1] at hreg
  rw [ht2 s hreg]
  cases hs : (state_at_scan env buffer 37 p w).gca.pads p with
  | some s' =>
    have hb := body_forward env (1 + 9 * p) (state_at_scan env buffer 37 p w) s'
      (hst1.trans hst) (by rw [hdiv, hs])
    rw [hb, cph_gca, hs] at hreg
    have hss : s' = s := Option.some.inj hreg
    subst hss
    obtain ⟨hc, hi, pad, hd, hl⟩ := (slot_live_iff _).mp (gca_wf_live hwf1 hp hs)
    rw [hb, cph_self env s' _ _ pad hi hd hl, scan_slice env w buffer p hlen hp]
    exact ⟨_, rfl, rfl, rfl⟩
  | none =>
    by_cases hvac : env.pad_connection_find_vacant_pad
        (state_at_scan env buffer 37 p w).pad_list < 0
    · have hb := body_register_fail env (1 + 9 * p) (state_at_scan env buffer 37 p w)
        (hst1.trans hst) (by rw [hdiv, hs]) hvac
      rw [hb, hs] at hreg
      exact Option.noConfusion hreg
    · have hb := body_register env (1 + 9 * p) (state_at_scan env buffer 37 p w)
        (hst1.trans hst) (by rw [hdiv, hs]) (hon1.trans hon) (by omega)
      generalize hsdef : (env.pad_connection_find_vacant_pad
        (state_at_scan env buffer 37 p w).pad_list).toNat = t at hb
      rw [hb, cph_gca, hdiv] at hreg
      have hts : t = s := by simpa using hreg
      subst hts
      rw [hb, cph_self env t _ _
        (set_pad_name_for_port (wiiu_gca_pad_init t) ((1 + 9 * p) / 9 : Nat))
        (by simp) (by simp) (by rw [(set_pad_name_fields _ _).1]; rfl),
        scan_slice env w buffer p hlen hp]
      exact ⟨_, rfl, rfl, rfl⟩
/-- C17 (offset composition).  From a well-formed online state and a 37-byte
buffer of bytes: if port `p < 4` reports `0x14` and points to the entry `s` after
`wiiu_gca_handle_packet`, the pad of that entry holds the port's 9-byte slice,
its button mask is the decoding of the field `buffer[9p+4] | buffer[9p+5] << 8`,
and `wiiu_gca_get_axis` on axis `k < 4` is the spec's axis value of
`buffer[9p+6+k]`.  The loop of the scan visits the offsets 1, 10, 19, 28, in that
order, whose ports are 0, 1, 2, 3, and each port's 9-byte slice ends within the
37 bytes. -/
theorem offset_composition (env : hid_env) (w : hid_state) (buffer : List Nat) (p s : Nat)
    (hv : vacant_sound env) (hwf : gca_wf w) (hon : w.gca.online = true) (hp : p < 4)
    (hlen : buffer.length = 37) (hbytes : ∀ b ∈ buffer, b < 256)
    (hst : buffer.getD (1 + 9 * p) 0 = 0x14)
    (hreg : (wiiu_gca_handle_packet env instance_ptr.gca buffer 37 w).gca.pads p = some s) :
    (∃ pad : gca_pad_t,
      ((wiiu_gca_handle_packet env instance_ptr.gca buffer 37 w).pad_list s).data = some pad ∧
      pad.data = port_slice buffer p ∧
      pad.buttons = decode_buttons env
        (buffer.getD (9 * p + 4) 0 ||| (buffer.getD (9 * p + 5) 0 <<< 8)) ∧
      ∀ k < 4, wiiu_gca_get_axis (some pad) k = spec_axis k (buffer.getD (9 * p + 6 + k) 0)) ∧
    (∀ w0 : hid_state, update_pad_state_loop env 37 1 w0 =
      update_pad_state_body env 28 (update_pad_state_body env 19
        (update_pad_state_body env 10 (update_pad_state_body env 1 w0)))) ∧
    (1 / 9 = 0 ∧ 10 / 9 = 1 ∧ 19 / 9 = 2 ∧ 28 / 9 = 3) ∧
    (∀ q < 4, 1 + 9 * q + 9 ≤ 37 ∧ (port_slice buffer q).length = 9) := by
  obtain ⟨pad, hd, hdata, hbut⟩ := connected_port_entry env w buffer p s hv hwf hon hp hlen
    hst hreg
  refine ⟨⟨pad, hd, hdata, ?_, ?_⟩, ?_, by decide, ?_⟩
  · rw [hbut]
    apply decode_buttons_congr
    intro i hi
    rw [pressed_keys_testBit _ i hi, port_slice_getD _ _ 3 (by decide),
      port_slice_getD _ _ 4 (by decide)]
    rw [show 1 + 9 * p + 3 = 9 * p + 4 by omega, show 1 + 9 * p + 4 = 9 * p + 5 by omega]
  · intro k hk
    apply axis_eq_spec pad k _ hk
    · have hlt : 9 * p + 6 + k < buffer.length := by omega
      rw [List.getD_eq_getElem _ _ hlt]
      exact hbytes _ (List.getElem_mem hlt)
    · rw [hdata, port_slice_getD _ _ (5 + k) (by omega)]
      congr 1
      omega
  · intro w0
    simp [update_pad_state_loop]
  · intro q hq
    refine ⟨by omega, ?_⟩
    simp [port_slice, List.length_take, List.length_drop, hlen]
    omega

/-- C17, run: a fresh adapter next to a vacant four-slot table receives the packet
that reports a pad on port 0. -/
theorem offset_composition_witness :
    (∃ pad : gca_pad_t,
      ((wiiu_gca_handle_packet (libretro_env 4) instance_ptr.gca buffer_port0 37
        fresh_state).pad_list 0).data = some pad ∧
      pad.data = port_slice buffer_port0 0 ∧
      pad.buttons = decode_buttons (libretro_env 4)
        (buffer_port0.getD (9 * 0 + 4) 0 ||| (buffer_port0.getD (9 * 0 + 5) 0 <<< 8)) ∧
      ∀ k < 4, wiiu_gca_get_axis (some pad) k =
        spec_axis k (buffer_port0.getD (9 * 0 + 6 + k) 0)) ∧
    (∀ w0 : hid_state, update_pad_state_loop (libretro_env 4) 37 1 w0 =
      update_pad_state_body (libretro_env 4) 28 (update_pad_state_body (libretro_env 4) 19
        (update_pad_state_body (libretro_env 4) 10
          (update_pad_state_body (libretro_env 4) 1 w0)))) ∧
    (1 / 9 = 0 ∧ 10 / 9 = 1 ∧ 19 / 9 = 2 ∧ 28 / 9 = 3) ∧
    (∀ q < 4, 1 + 9 * q + 9 ≤ 37 ∧ (port_slice buffer_port0 q).length = 9) :=
  offset_composition (libretro_env 4) fresh_state buffer_port0 0 0
    (libretro_env_vacant_sound 4) (by unfold gca_wf; decide) (by decide) (by decide)
    (by decide) (by decide) (by decide) (by decide)

/-! ## Ownership of slots along a history -/

theorem body_owned (env : hid_env) (i : Nat) (w : hid_state) (hq : i / 9 < 4)
    (hon : w.gca.online = true) (hv : vacant_sound env)
    (hinj : ∀ p < 4, ∀ q < 4, ∀ s, w.gca.pads p = some s → w.gca.pads q = some s → p = q)
    (hconn : ∀ p < 4, ∀ s, w.gca.pads p = some s → (w.pad_list s).connected = true) :
    (∀ p < 4, ∀ q < 4, ∀ s, (update_pad_state_body env i w).gca.pads p = some s →
      (update_pad_state_body env i w).gca.pads q = some s → p = q) ∧
    (∀ p < 4, ∀ s, (update_pad_state_body env i w).gca.pads p = some s →
      ((update_pad_state_body env i w).pad_list s).connected = true) := by
  rcases body_cases env i w hq hon with h | ⟨s, hs, _, h⟩ | ⟨s, hs, _, h⟩ | ⟨hs, _, hvac, h⟩
  · rw [h]; exact ⟨hinj, hconn⟩
  · rw [h]
    have hold : ∀ p t, (released w (i / 9) s).gca.pads p = some t →
        p ≠ i / 9 ∧ w.gca.pads p = some t := by
      intro p t ht
      by_cases hpq : p = i / 9
      · subst hpq; simp [released] at ht
      · exact ⟨hpq, by simpa [released, Function.update_noteq hpq] using ht⟩
    constructor
    · intro p hp q hq' t hpt hqt
      exact hinj p hp q hq' t (hold p t hpt).2 (hold q t hqt).2
    · intro p hp t ht
      obtain ⟨hne, ht'⟩ := hold p t ht
      have hts : t ≠ s := fun e => hne (hinj p hp (i / 9) hq t ht' (e ▸ hs))
      simpa [released, Function.update_noteq hts] using hconn p hp t ht'
  · rw [h]
    constructor
    · intro p hp q hq' t hpt hqt
      rw [cph_gca] at hpt hqt
      exact hinj p hp q hq' t hpt hqt
    · intro p hp t ht
      rw [cph_gca] at ht
      rw [(cph_flags _ _ _ _ _ t).1]
      exact hconn p hp t ht
  · have hfree := hv w.pad_list hvac
    rw [h]
    have hold : ∀ p < 4, ∀ t,
        (bound w (i / 9) (env.pad_connection_find_vacant_pad w.pad_list).toNat).gca.pads p
          = some t →
        (p = i / 9 ∧ t = (env.pad_connection_find_vacant_pad w.pad_list).toNat) ∨
        (p ≠ i / 9 ∧ w.gca.pads p = some t ∧
          t ≠ (env.pad_connection_find_vacant_pad w.pad_list).toNat) := by
      intro p hp t ht
      by_cases hpq : p = i / 9
      · subst hpq
        exact Or.inl ⟨rfl, by simpa [bound] using ht.symm⟩
      · have ht' : w.gca.pads p = some t := by
          simpa [bound, Function.update_noteq hpq] using ht
        refine Or.inr ⟨hpq, ht', fun e => ?_⟩
        have := hconn p hp t ht'
        rw [e, hfree] at this
        exact Bool.noConfusion this
    constructor
    · intro p hp q hq' t hpt hqt
      rw [cph_gca] at hpt hqt
      rcases hold p hp t hpt with ⟨h1, h2⟩ | ⟨h1, h2, h3⟩ <;>
        rcases hold q hq' t hqt with ⟨h4, h5⟩ | ⟨h4, h5, h6⟩
      · rw [h1, h4]
      · exact absurd h2 h6
      · exact absurd h5 h3
      · exact hinj p hp q hq' t h2 h5
    · intro p hp t ht
      rw [cph_gca] at ht
      rw [(cph_flags _ _ _ _ _ t).1]
      rcases hold p hp t ht with ⟨_, h2⟩ | ⟨_, h2, h3⟩
      · rw [h2]; simp [bound]
      · simpa [bound, Function.update_noteq h3] using hconn p hp t h2

theorem loop_owned (env : hid_env) (hv : vacant_sound env) (n : Nat) :
    ∀ (i : Nat) (w : hid_state), i % 9 = 1 → w.gca.online = true →
      (∀ p < 4, ∀ q < 4, ∀ s, w.gca.pads p = some s → w.gca.pads q = some s → p = q) →
      (∀ p < 4, ∀ s, w.gca.pads p = some s → (w.pad_list s).connected = true) →
      (∀ p < 4, ∀ q < 4, ∀ s, (update_pad_state_loop env n i w).gca.pads p = some s →
        (update_pad_state_loop env n i w).gca.pads q = some s → p = q) ∧
      (∀ p < 4, ∀ s, (update_pad_state_loop env n i w).gca.pads p = some s →
        ((update_pad_state_loop env n i w).pad_list s).connected = true) := by
  induction n with
  | zero => intro i w _ _ h1 h2; exact ⟨h1, h2⟩
  | succ n ih =>
    intro i w hi hon h1 h2
    by_cases h : i < 37
    · rw [loop_succ env n i w h]
      obtain ⟨h3, h4⟩ := body_owned env i w (by omega) hon hv h1 h2
      exact ih (i + 9) _ (by omega) ((body_device_state env i w).2.trans hon) h3 h4
    · rw [loop_done env _ i w (by omega)]; exact ⟨h1, h2⟩

theorem handle_packet_owned (env : hid_env) (hv : vacant_sound env) (data : instance_ptr)
    (buffer : List Nat) (size : Nat) (w : hid_state)
    (h1 : ∀ p < 4, ∀ q < 4, ∀ s, w.gca.pads p = some s → w.gca.pads q = some s → p = q)
    (h2 : ∀ p < 4, ∀ s, w.gca.pads p = some s → (w.pad_list s).connected = true) :
    (∀ p < 4, ∀ q < 4, ∀ s,
      (wiiu_gca_handle_packet env data buffer size w).gca.pads p = some s →
      (wiiu_gca_handle_packet env data buffer size w).gca.pads q = some s → p = q) ∧
    (∀ p < 4, ∀ s, (wiiu_gca_handle_packet env data buffer size w).gca.pads p = some s →
      ((wiiu_gca_handle_packet env data buffer size w).pad_list s).connected = true) := by
  unfold wiiu_gca_handle_packet
  split_ifs with hc hsz
  · exact ⟨h1, h2⟩
  · exact ⟨h1, h2⟩
  · push_neg at hc
    have hon : w.gca.online = true := by simpa using hc.2
    unfold update_pad_state
    rw [if_neg (by simp [hc.1, hon])]
    exact loop_owned env hv 37 1 _ (by decide) hon h1 h2

/-- C19 (slot ownership).  Let the vacancy query answer only with slots that are
not marked connected.  In every state reachable from `wiiu_gca_init` by calls of
`wiiu_gca_handle_packet` (any instance pointer, buffer and size), two ports
among 0..3 that point to the same pad table entry are the same port, and every
entry a port points to is marked connected. -/
theorem slot_ownership_invariant (env : hid_env) (hv : vacant_sound env) (w : hid_state)
    (h : reachable env w) :
    (∀ p < 4, ∀ q < 4, ∀ s, w.gca.pads p = some s → w.gca.pads q = some s → p = q) ∧
    (∀ p < 4, ∀ s, w.gca.pads p = some s → (w.pad_list s).connected = true) := by
  induction h with
  | init read pad_list =>
    constructor
    · intro p _ q _ s hp _; simp [wiiu_gca_init] at hp
    · intro p _ s hp; simp [wiiu_gca_init] at hp
  | packet data buffer size w _ ih =>
    exact handle_packet_owned env hv data buffer size w ih.1 ih.2

/-- C19, run: the state with ports 0 and 1 registered, reached from a fresh
adapter by one packet. -/
theorem slot_ownership_invariant_witness :
    (∀ p < 4, ∀ q < 4, ∀ s, (port01_state 4).gca.pads p = some s →
      (port01_state 4).gca.pads q = some s → p = q) ∧
    (∀ p < 4, ∀ s, (port01_state 4).gca.pads p = some s →
      ((port01_state 4).pad_list s).connected = true) :=
  slot_ownership_invariant (libretro_env 4) (libretro_env_vacant_sound 4) (port01_state 4)
    (reachable.packet instance_ptr.gca buffer_port01 37 fresh_state
      (reachable.init (List.replicate 37 0) (fun _ => vacant_entry)))

/-! ## A port through three packets -/

theorem handle_packet_online (env : hid_env) (data : instance_ptr) (buffer : List Nat)
    (size : Nat) (w : hid_state) :
    (wiiu_gca_handle_packet env data buffer size w).gca.online = w.gca.online := by
  by_cases hc : data = instance_ptr.NULL ∨ w.gca.online = false
  · simp only [wiiu_gca_handle_packet, hc, if_true]
  · by_cases hsz : size > 37
    · simp only [wiiu_gca_handle_packet, hc, hsz, if_true, if_false]
    · simp only [wiiu_gca_handle_packet, hc, hsz, if_false, update_pad_state]
      exact (loop_device_state env 37 1 _).2

theorem handle_packet_wf (env : hid_env) (hv : vacant_sound env) (buffer : List Nat)
    (w : hid_state) (hon : w.gca.online = true) (hlen : buffer.length = 37)
    (hwf : gca_wf w) : gca_wf (wiiu_gca_handle_packet env instance_ptr.gca buffer 37 w) := by
  simp only [wiiu_gca_handle_packet, update_pad_state, hon, false_or, Bool.true_eq_false,
    if_false, reduceCtorEq, gt_iff_lt, lt_self_iff_false]
  exact loop_wf env hv 37 1 _ (by decide) rfl (hon ▸ copied_wf w buffer hlen hwf)

theorem pads_after_idle (env : hid_env) (w : hid_state) (buffer : List Nat) (p : Nat)
    (hon : w.gca.online = true) (hp : p < 4) (hlen : buffer.length = 37)
    (hst : buffer.getD (1 + 9 * p) 0 = 0x00 ∨ buffer.getD (1 + 9 * p) 0 = 0x04)
    (hs : w.gca.pads p = none) :
    (wiiu_gca_handle_packet env instance_ptr.gca buffer 37 w).gca.pads p = none := by
  obtain ⟨-, hst1, -, hpads1⟩ := state_at_scan_facts env w buffer p hlen hp
  have hdiv : (1 + 9 * p) / 9 = p := by omega
  rw [final_pads_eq env w buffer p hon hp,
    body_idle env (1 + 9 * p) _ (by rw [hst1]; exact hst) (by rw [hdiv, hpads1, hs]),
    hpads1, hs]

theorem pads_after_register (env : hid_env) (w : hid_state) (buffer : List Nat) (p : Nat)
    (hon : w.gca.online = true) (hp : p < 4) (hlen : buffer.length = 37)
    (hst : buffer.getD (1 + 9 * p) 0 = 0x14) (hs : w.gca.pads p = none)
    (hvac : 0 ≤ env.pad_connection_find_vacant_pad
      (state_at_scan env buffer 37 p w).pad_list) :
    (wiiu_gca_handle_packet env instance_ptr.gca buffer 37 w).gca.pads p =
      some (env.pad_connection_find_vacant_pad
        (state_at_scan env buffer 37 p w).pad_list).toNat := by
  obtain ⟨hon1, hst1, -, hpads1⟩ := state_at_scan_facts env w buffer p hlen hp
  have hdiv : (1 + 9 * p) / 9 = p := by omega
  rw [final_pads_eq env w buffer p hon hp,
    body_register env (1 + 9 * p) _ (hst1.trans hst) (by rw [hdiv, hpads1, hs])
      (hon1.trans hon) hvac, cph_gca, hdiv]
  simp

theorem pads_after_disconnect (env : hid_env) (w : hid_state) (buffer : List Nat) (p s : Nat)
    (hon : w.gca.online = true) (hp : p < 4) (hlen : buffer.length = 37)
    (hst : buffer.getD (1 + 9 * p) 0 = 0x00 ∨ buffer.getD (1 + 9 * p) 0 = 0x04)
    (hs : w.gca.pads p = some s) :
    (wiiu_gca_handle_packet env instance_ptr.gca buffer 37 w).gca.pads p = none ∧
    ((state_at_scan env buffer 37 (p + 1) w).pad_list s).connected = false ∧
    ((state_at_scan env buffer 37 (p + 1) w).pad_list s).data = none := by
  obtain ⟨-, hst1, -, hpads1⟩ := state_at_scan_facts env w buffer p hlen hp
  have hdiv : (1 + 9 * p) / 9 = p := by omega
  have hb := body_disconnect env (1 + 9 * p) (state_at_scan env buffer 37 p w) s
    (by rw [hst1]; exact hst) (by omega) (by rw [hdiv, hpads1, hs])
  rw [hdiv] at hb
  refine ⟨?_, ?_, ?_⟩
  · rw [final_pads_eq env w buffer p hon hp, hb]; simp
  · rw [state_at_scan_succ env w buffer 37 p hp, hb]; simp
  · rw [state_at_scan_succ env w buffer 37 p hp, hb]; simp

theorem released_slot_reuse (env : hid_env) (w : hid_state) (buffer : List Nat) (p s : Nat)
    (hv : vacant_sound env) (hwf : gca_wf w) (hon : w.gca.online = true) (hp : p < 4)
    (hs : w.gca.pads p = some s) (hlen : buffer.length = 37)
    (hfin : (wiiu_gca_handle_packet env instance_ptr.gca buffer 37 w).gca.pads p = none) :
    ∀ q < 4, (wiiu_gca_handle_packet env instance_ptr.gca buffer 37 w).gca.pads q = some s →
      p < q ∧ w.gca.pads q = none ∧ buffer.getD (1 + 9 * q) 0 = 0x14 := by
  obtain ⟨hon1, hst1, -, hpads1⟩ := state_at_scan_facts env w buffer p hlen hp
  have hwf1 := state_at_scan_wf env w buffer p hv hwf hon hlen
  intro q hq hqs
  have hqp : q ≠ p := by
    intro e; rw [e, hfin] at hqs; exact Option.noConfusion hqs
  obtain ⟨honq, hstq, -, hpadsq⟩ := state_at_scan_facts env w buffer q hlen hq
  have hdivq : (1 + 9 * q) / 9 = q := by omega
  have hq1 := final_pads_eq env w buffer q hon hq
  rw [hqs] at hq1
  have hown := body_pads_own env (1 + 9 * q) (state_at_scan env buffer 37 q w) s
    (by omega) (honq.trans hon) (by rw [hdivq]; exact hq1.symm)
  rw [hdivq, hpadsq, hstq] at hown
  rcases hown with h | ⟨h1, h2⟩
  · exact absurd (gca_wf_inj hwf hp hq hs h) hqp
  · refine ⟨?_, h1, h2⟩
    by_contra hlt
    have hlt' : q < p := by omega
    have h3 : (wiiu_gca_handle_packet env instance_ptr.gca buffer 37 w).gca.pads q =
        (state_at_scan env buffer 37 p w).gca.pads q := by
      rw [handle_packet_split env w buffer 37 p hon (by omega) hp,
        loop_pads_untouched env q _ _ _ (by omega) (by omega)]
      exact body_pads_other env _ _ q (by omega)
    rw [hqs] at h3
    exact hqp (gca_wf_inj hwf1 hp hq (hpads1.trans hs) h3.symm)

/-- C11 as stated fails: registration needs a vacant slot.  Port 0 owns the only
slot of a one-slot table and stays connected; port 1 owns nothing and reports
`0x04`, `0x14`, `0x04` over three packets.  Port 1 is never registered and never
unregistered. -/
theorem lifecycle_counterexample :
    gca_wf (port0_state 1) ∧ (port0_state 1).gca.online = true ∧
    (port0_state 1).gca.pads 1 = none ∧
    buffer_port0.length = 37 ∧ buffer_port01.length = 37 ∧
    buffer_port0.getD (1 + 9 * 1) 0 = 0x04 ∧ buffer_port01.getD (1 + 9 * 1) 0 = 0x14 ∧
    count_registrations (libretro_env 1) 1 [buffer_port0, buffer_port01, buffer_port0]
      (port0_state 1) = 0 ∧
    count_unregistrations (libretro_env 1) 1 [buffer_port0, buffer_port01, buffer_port0]
      (port0_state 1) = 0 := by
  refine ⟨by unfold gca_wf; decide, by decide, by decide, by decide, by decide, by decide,
    by decide, by decide, by decide⟩
/-- C11, amended.  From a well-formed online state in which port `p < 4` owns no
pad, take three 37-byte packets whose status bytes for port `p` are `0x04`,
`0x14`, `0x04`.  If the vacancy query answers with a slot at the moment port `p`
is scanned in the second call, then over the three calls port `p` is registered
exactly once and unregistered exactly once: it owns nothing after the first
call, points to that slot after the second, and owns nothing after the third.
The slot released in the third call is the one bound in the second (it has lost
its pad and is disconnected once the scan has passed port `p`), and a port that
points to it at the end is a later port that registered afresh in the third
call. -/
theorem empty_connected_empty (env : hid_env) (w : hid_state) (b1 b2 b3 : List Nat) (p : Nat)
    (hv : vacant_sound env) (hwf : gca_wf w) (hon : w.gca.online = true) (hp : p < 4)
    (hempty : w.gca.pads p = none)
    (hl1 : b1.length = 37) (hl2 : b2.length = 37) (hl3 : b3.length = 37)
    (hs1 : b1.getD (1 + 9 * p) 0 = 0x04) (hs2 : b2.getD (1 + 9 * p) 0 = 0x14)
    (hs3 : b3.getD (1 + 9 * p) 0 = 0x04)
    (hvac : 0 ≤ env.pad_connection_find_vacant_pad
      (state_at_scan env b2 37 p (handle_packets env [b1] w)).pad_list) :
    count_registrations env p [b1, b2, b3] w = 1 ∧
    count_unregistrations env p [b1, b2, b3] w = 1 ∧
    (handle_packets env [b1] w).gca.pads p = none ∧
    (handle_packets env [b1, b2] w).gca.pads p =
      some (env.pad_connection_find_vacant_pad
        (state_at_scan env b2 37 p (handle_packets env [b1] w)).pad_list).toNat ∧
    (handle_packets env [b1, b2, b3] w).gca.pads p = none ∧
    ((state_at_scan env b3 37 (p + 1) (handle_packets env [b1, b2] w)).pad_list
      (env.pad_connection_find_vacant_pad
        (state_at_scan env b2 37 p (handle_packets env [b1] w)).pad_list).toNat).connected
      = false ∧
    ((state_at_scan env b3 37 (p + 1) (handle_packets env [b1, b2] w)).pad_list
      (env.pad_connection_find_vacant_pad
        (state_at_scan env b2 37 p (handle_packets env [b1] w)).pad_list).toNat).data
      = none ∧
    ∀ q < 4, (handle_packets env [b1, b2, b3] w).gca.pads q =
        some (env.pad_connection_find_vacant_pad
          (state_at_scan env b2 37 p (handle_packets env [b1] w)).pad_list).toNat →
      p < q ∧ (handle_packets env [b1, b2] w).gca.pads q = none ∧
        b3.getD (1 + 9 * q) 0 = 0x14 := by
  have e1 : handle_packets env [b1] w =
      wiiu_gca_handle_packet env instance_ptr.gca b1 37 w := rfl
  have e2 : handle_packets env [b1, b2] w =
      wiiu_gca_handle_packet env instance_ptr.gca b2 37
        (wiiu_gca_handle_packet env instance_ptr.gca b1 37 w) := rfl
  have e3 : handle_packets env [b1, b2, b3] w =
      wiiu_gca_handle_packet env instance_ptr.gca b3 37
        (wiiu_gca_handle_packet env instance_ptr.gca b2 37
          (wiiu_gca_handle_packet env instance_ptr.gca b1 37 w)) := rfl
  rw [e1] at hvac
  rw [e1, e2, e3]
  generalize hw1 : wiiu_gca_handle_packet env instance_ptr.gca b1 37 w = w1 at hvac ⊢
  have hon1 : w1.gca.online = true := by
    rw [← hw1, handle_packet_online]; exact hon
  have hwf1 : gca_wf w1 := by
    rw [← hw1]; exact handle_packet_wf env hv b1 w hon hl1 hwf
  have h1 : w1.gca.pads p = none := by
    rw [← hw1]; exact pads_after_idle env w b1 p hon hp hl1 (Or.inr hs1) hempty
  have h2 := pads_after_register env w1 b2 p hon1 hp hl2 hs2 h1 hvac
  generalize hslot : (env.pad_connection_find_vacant_pad
    (state_at_scan env b2 37 p w1).pad_list).toNat = slot at h2 ⊢
  generalize hw2 : wiiu_gca_handle_packet env instance_ptr.gca b2 37 w1 = w2 at h2 ⊢
  have hon2 : w2.gca.online = true := by
    rw [← hw2, handle_packet_online]; exact hon1
  have hwf2 : gca_wf w2 := by
    rw [← hw2]; exact handle_packet_wf env hv b2 w1 hon1 hl2 hwf1
  obtain ⟨h3, h4, h5⟩ := pads_after_disconnect env w2 b3 p slot hon2 hp hl3 (Or.inr hs3) h2
  have h6 := released_slot_reuse env w2 b3 p slot hv hwf2 hon2 hp h2 hl3 h3
  refine ⟨?_, ?_, h1, h2, h3, h4, h5, h6⟩
  · simp [count_registrations, hw1, hw2, hempty, h1, h2, h3]
  · simp [count_unregistrations, hw1, hw2, hempty, h1, h2, h3]

/-- C11 amended, run: a fresh adapter next to a vacant four-slot table sees port 0
empty, connected, empty. -/
theorem empty_connected_empty_witness :
    count_registrations (libretro_env 4) 0 [buffer_empty, buffer_port0, buffer_empty]
      fresh_state = 1 ∧
    count_unregistrations (libretro_env 4) 0 [buffer_empty, buffer_port0, buffer_empty]
      fresh_state = 1 ∧
    (handle_packets (libretro_env 4) [buffer_empty] fresh_state).gca.pads 0 = none ∧
    (handle_packets (libretro_env 4) [buffer_empty, buffer_port0] fresh_state).gca.pads 0 =
      some ((libretro_env 4).pad_connection_find_vacant_pad
        (state_at_scan (libretro_env 4) buffer_port0 37 0
          (handle_packets (libretro_env 4) [buffer_empty] fresh_state)).pad_list).toNat ∧
    (handle_packets (libretro_env 4) [buffer_empty, buffer_port0, buffer_empty]
      fresh_state).gca.pads 0 = none ∧
    ((state_at_scan (libretro_env 4) buffer_empty 37 (0 + 1)
        (handle_packets (libretro_env 4) [buffer_empty, buffer_port0] fresh_state)).pad_list
      ((libretro_env 4).pad_connection_find_vacant_pad
        (state_at_scan (libretro_env 4) buffer_port0 37 0
          (handle_packets (libretro_env 4) [buffer_empty] fresh_state)).pad_list).toNat).connected
      = false ∧
    ((state_at_scan (libretro_env 4) buffer_empty 37 (0 + 1)
        (handle_packets (libretro_env 4) [buffer_empty, buffer_port0] fresh_state)).pad_list
      ((libretro_env 4).pad_connection_find_vacant_pad
        (state_at_scan (libretro_env 4) buffer_port0 37 0
          (handle_packets (libretro_env 4) [buffer_empty] fresh_state)).pad_list).toNat).data
      = none ∧
    ∀ q < 4, (handle_packets (libretro_env 4) [buffer_empty, buffer_port0, buffer_empty]
        fresh_state).gca.pads q =
        some ((libretro_env 4).pad_connection_find_vacant_pad
          (state_at_scan (libretro_env 4) buffer_port0 37 0
            (handle_packets (libretro_env 4) [buffer_empty] fresh_state)).pad_list).toNat →
      0 < q ∧ (handle_packets (libretro_env 4) [buffer_empty, buffer_port0]
        fresh_state).gca.pads q = none ∧ buffer_empty.getD (1 + 9 * q) 0 = 0x14 :=
  empty_connected_empty (libretro_env 4) fresh_state buffer_empty buffer_port0 buffer_empty 0
    (libretro_env_vacant_sound 4) (by unfold gca_wf; decide) (by decide) (by decide)
    (by decide) (by decide) (by decide) (by decide) (by decide) (by decide) (by decide)
    (by decide)

end WiiuGca
